import Mathlib

/-!
# fbgrab: framebuffer capture and colour format normalisation

A shallow embedding of `src/fbgrab.c`.

* C `unsigned int` arithmetic is arithmetic on `Nat` reduced modulo `4294967296`
  (`2^32`); `size_t` arithmetic is reduced modulo `18446744073709551616` (`2^64`).
* `unsigned char` buffers are lists of naturals; a store keeps the value modulo 256.
* A buffer access outside the buffer (undefined behaviour in C) stops the
  computation with a `Fault` that records the offending index.
* The file-scope variables `srcBlue`, `srcGreen`, `srcRed`, `srcAlpha` are threaded
  explicitly as a record `SrcOffsets`.
* Calls into the operating system and libpng are recorded as `Event`s; their
  outcomes are read from an environment record.
-/

namespace Fbgrab

/-! ## Machine integers and buffers -/

/-- Conversion of a C `int` to `unsigned int` (32 bits). -/
def toU32 (x : Int) : Nat := (x % 4294967296).toNat

/-- Conversion of a C `int` to `size_t` (64 bits). -/
def toU64 (x : Int) : Nat := (x % 18446744073709551616).toNat

/-- Conversion of a 32-bit unsigned value to a C `int` (two's complement). -/
def toI32 (x : Nat) : Int :=
  if x % 4294967296 < 2147483648 then ((x % 4294967296 : Nat) : Int)
  else ((x % 4294967296 : Nat) : Int) - 4294967296

/-- An `unsigned char` buffer. -/
abbrev Buffer := List Nat

/-- A buffer of `n` bytes, all equal to `v`. -/
def constBuffer (n v : Nat) : Buffer := List.replicate n v

/-- Memory faults of the embedding: an access outside a buffer, or a loop that
did not finish within the iteration budget. -/
inductive Fault where
  | readOutOfBounds (idx : Nat)
  | writeOutOfBounds (idx : Nat)
  | outOfFuel
  deriving DecidableEq, Repr

/-- The output buffer together with the log of the byte indices stored to,
oldest first. -/
structure Mem where
  out : Buffer
  writes : List Nat
  deriving DecidableEq, Repr

/-- The expression `inbuffer[idx]`. -/
def load (inbuffer : Buffer) (idx : Nat) : Except Fault Nat :=
  match inbuffer[idx]? with
  | some b => .ok b
  | none => .error (.readOutOfBounds idx)

/-- The statement `outbuffer[idx] = v` for an `int` value `v ≥ 0`. -/
def store (m : Mem) (idx v : Nat) : Except Fault Mem :=
  if idx < m.out.length then .ok ⟨m.out.set idx (v % 256), m.writes ++ [idx]⟩
  else .error (.writeOutOfBounds idx)

/-- The file-scope variables `srcBlue`, `srcGreen`, `srcRed`, `srcAlpha`. -/
structure SrcOffsets where
  srcBlue : Int
  srcGreen : Int
  srcRed : Int
  srcAlpha : Int
  deriving DecidableEq, Repr

/-- The initialisers of the four file-scope variables. -/
def initialOffsets : SrcOffsets := ⟨0, 1, 2, 3⟩

def Blue : Int := 0
def Green : Int := 1
def Red : Int := 2
def Alpha : Int := 3

/-! ## The converters -/

/-- The loop `for (i = start; i < bound; i += step) body`, with `i` an
`unsigned int`.  `fuel` bounds the number of iterations. -/
def forLoop (fuel bound step : Nat) (body : Nat → Mem → Except Fault Mem)
    (i : Nat) (m : Mem) : Except Fault Mem :=
  if i < bound then
    match fuel with
    | 0 => .error .outOfFuel
    | fuel + 1 =>
      match body i m with
      | .ok m1 => forLoop fuel bound step body ((i + step) % 4294967296) m1
      | .error e => .error e
  else .ok m

/-- Iteration budget given to every converter loop: more than any terminating
loop over an `unsigned int` counter can use. -/
def loopFuel : Nat := 4294967296

/-- Body of the loop of `convert1555to32`. -/
def convert1555to32_body (inbuffer : Buffer) (i : Nat) (m : Mem) : Except Fault Mem := do
  let b1 ← load inbuffer ((i + 1) % 4294967296)
  let m ← store m (((i <<< 1) % 4294967296 + toU32 Blue) % 4294967296) ((b1 &&& 0x7C) <<< 1)
  let g1 ← load inbuffer ((i + 1) % 4294967296)
  let g0 ← load inbuffer i
  let m ← store m (((i <<< 1) % 4294967296 + toU32 Green) % 4294967296)
    ((((g1 &&& 0x3) <<< 3) ||| ((g0 &&& 0xe0) >>> 5)) <<< 3)
  let r0 ← load inbuffer i
  let m ← store m (((i <<< 1) % 4294967296 + toU32 Red) % 4294967296) ((r0 &&& 0x1f) <<< 3)
  store m (((i <<< 1) % 4294967296 + toU32 Alpha) % 4294967296) 0

def convert1555to32 (width height : Int) (inbuffer : Buffer) (outbuffer : Mem) :
    Except Fault Mem :=
  forLoop loopFuel (toU32 height * toU32 width % 4294967296 * 2 % 4294967296) 2
    (convert1555to32_body inbuffer) 0 outbuffer

/-- Body of the loop of `convert565to32`. -/
def convert565to32_body (inbuffer : Buffer) (i : Nat) (m : Mem) : Except Fault Mem := do
  let b0 ← load inbuffer i
  let m ← store m (((i <<< 1) % 4294967296 + toU32 Blue) % 4294967296) ((b0 &&& 0x1f) <<< 3)
  let g1 ← load inbuffer ((i + 1) % 4294967296)
  let g0 ← load inbuffer i
  let m ← store m (((i <<< 1) % 4294967296 + toU32 Green) % 4294967296)
    ((((g1 &&& 0x7) <<< 3) ||| ((g0 &&& 0xE0) >>> 5)) <<< 2)
  let r1 ← load inbuffer ((i + 1) % 4294967296)
  let m ← store m (((i <<< 1) % 4294967296 + toU32 Red) % 4294967296) (r1 &&& 0xF8)
  store m (((i <<< 1) % 4294967296 + toU32 Alpha) % 4294967296) 0

def convert565to32 (width height : Int) (inbuffer : Buffer) (outbuffer : Mem) :
    Except Fault Mem :=
  forLoop loopFuel (toU32 height * toU32 width % 4294967296 * 2 % 4294967296) 2
    (convert565to32_body inbuffer) 0 outbuffer

/-- Body of the loop of `convert888to32`. -/
def convert888to32_body (src : SrcOffsets) (inbuffer : Buffer) (i : Nat) (m : Mem) :
    Except Fault Mem := do
  let b ← load inbuffer ((i * 3 % 4294967296 + toU32 src.srcBlue) % 4294967296)
  let m ← store m (((i <<< 2) % 4294967296 + toU32 Blue) % 4294967296) b
  let g ← load inbuffer ((i * 3 % 4294967296 + toU32 src.srcGreen) % 4294967296)
  let m ← store m (((i <<< 2) % 4294967296 + toU32 Green) % 4294967296) g
  let r ← load inbuffer ((i * 3 % 4294967296 + toU32 src.srcRed) % 4294967296)
  let m ← store m (((i <<< 2) % 4294967296 + toU32 Red) % 4294967296) r
  store m (((i <<< 2) % 4294967296 + toU32 Alpha) % 4294967296) 0

def convert888to32 (src : SrcOffsets) (width height : Int) (inbuffer : Buffer)
    (outbuffer : Mem) : Except Fault Mem :=
  forLoop loopFuel (toU32 height * toU32 width % 4294967296) 1
    (convert888to32_body src inbuffer) 0 outbuffer

/-- Body of the loop of `convert8888to32`. -/
def convert8888to32_body (src : SrcOffsets) (inbuffer : Buffer) (i : Nat) (m : Mem) :
    Except Fault Mem := do
  let b ← load inbuffer ((i * 4 % 4294967296 + toU32 src.srcBlue) % 4294967296)
  let m ← store m (((i <<< 2) % 4294967296 + toU32 Blue) % 4294967296) b
  let g ← load inbuffer ((i * 4 % 4294967296 + toU32 src.srcGreen) % 4294967296)
  let m ← store m (((i <<< 2) % 4294967296 + toU32 Green) % 4294967296) g
  let r ← load inbuffer ((i * 4 % 4294967296 + toU32 src.srcRed) % 4294967296)
  let m ← store m (((i <<< 2) % 4294967296 + toU32 Red) % 4294967296) r
  if 0 ≤ src.srcAlpha then do
    let a ← load inbuffer ((i * 4 % 4294967296 + toU32 src.srcAlpha) % 4294967296)
    store m (((i <<< 2) % 4294967296 + toU32 Alpha) % 4294967296) a
  else
    store m (((i <<< 2) % 4294967296 + toU32 Alpha) % 4294967296) 0

def convert8888to32 (src : SrcOffsets) (width height : Int) (inbuffer : Buffer)
    (outbuffer : Mem) : Except Fault Mem :=
  forLoop loopFuel (toU32 height * toU32 width % 4294967296) 1
    (convert8888to32_body src inbuffer) 0 outbuffer



instance instDecidableEqExcept {ε α : Type} [DecidableEq ε] [DecidableEq α] :
    DecidableEq (Except ε α) := fun x y =>
  match x, y with
  | .ok a, .ok b => if h : a = b then isTrue (by rw [h]) else isFalse (fun e => h (Except.ok.inj e))
  | .error a, .error b =>
    if h : a = b then isTrue (by rw [h]) else isFalse (fun e => h (Except.error.inj e))
  | .ok _, .error _ => isFalse (fun e => Except.noConfusion e)
  | .error _, .ok _ => isFalse (fun e => Except.noConfusion e)


/-- One colour value per output channel. -/
structure BGRA where
  b : Nat
  g : Nat
  r : Nat
  a : Nat

/-- The four stores of one loop iteration, for pixel `p`. -/
def writePixel (m : Mem) (p : Nat) (x : BGRA) : Mem :=
  ⟨(((m.out.set (4 * p) (x.b % 256)).set (4 * p + 1) (x.g % 256)).set (4 * p + 2)
      (x.r % 256)).set (4 * p + 3) (x.a % 256),
    m.writes ++ [4 * p, 4 * p + 1, 4 * p + 2, 4 * p + 3]⟩

/-- The loop without counter wrap-around: `k` iterations from pixel `p`. -/
def iter (body : Nat → Mem → Except Fault Mem) (step : Nat) :
    Nat → Nat → Mem → Except Fault Mem
  | _, 0, m => .ok m
  | p, k + 1, m =>
    match body (p * step) m with
    | .ok m1 => iter body step (p + 1) k m1
    | .error e => .error e

/-- Pixels `p, p+1, ..., p+k-1` written in order. -/
def paint (f : Nat → BGRA) : Nat → Nat → Mem → Mem
  | _, 0, m => m
  | p, k + 1, m => paint f (p + 1) k (writePixel m p (f p))

/-- Channel `c` (0 blue, 1 green, 2 red, 3 alpha) of a colour value. -/
def BGRA.chan (x : BGRA) (c : Nat) : Nat :=
  if c = 0 then x.b else if c = 1 then x.g else if c = 2 then x.r else x.a

/-- Decode rule of the 16-bit (`565`) format for pixel `p`, after the table of
the specification: `lo`, `hi` are the two bytes of the pixel. -/
def spec565 (inbuffer : Buffer) (p : Nat) : BGRA :=
  let lo := inbuffer.getD (2 * p) 0
  let hi := inbuffer.getD (2 * p + 1) 0
  ⟨(lo &&& 0x1F) <<< 3, (((hi &&& 0x07) <<< 3) ||| ((lo &&& 0xE0) >>> 5)) <<< 2, hi &&& 0xF8, 0⟩

/-- Decode rule of the 15-bit (`1555`) format for pixel `p`, after the table of
the specification. -/
def spec1555 (inbuffer : Buffer) (p : Nat) : BGRA :=
  let lo := inbuffer.getD (2 * p) 0
  let hi := inbuffer.getD (2 * p + 1) 0
  ⟨(hi &&& 0x7C) <<< 1, (((hi &&& 0x03) <<< 3) ||| ((lo &&& 0xE0) >>> 5)) <<< 3, (lo &&& 0x1F) <<< 3, 0⟩

/-- A channel offset that lies inside a pixel of `k` bytes. -/
def offsetOk (k : Int) (x : Int) : Prop := 0 ≤ x ∧ x < k

instance (k x : Int) : Decidable (offsetOk k x) := by
  unfold offsetOk
  exact inferInstance

/-- Copy rule of the 24-bit (`888`) format for pixel `p`, after the table of the
specification: each channel is the input byte at `pixelBase + channelOffset`. -/
def spec888 (src : SrcOffsets) (inbuffer : Buffer) (p : Nat) : BGRA :=
  ⟨inbuffer.getD (3 * p + src.srcBlue.toNat) 0, inbuffer.getD (3 * p + src.srcGreen.toNat) 0,
    inbuffer.getD (3 * p + src.srcRed.toNat) 0, 0⟩

/-- Copy rule of the 32-bit (`8888`) format for pixel `p`, after the table of the
specification; the alpha offset is absent when it is negative. -/
def spec8888 (src : SrcOffsets) (inbuffer : Buffer) (p : Nat) : BGRA :=
  ⟨inbuffer.getD (4 * p + src.srcBlue.toNat) 0, inbuffer.getD (4 * p + src.srcGreen.toNat) 0,
    inbuffer.getD (4 * p + src.srcRed.toNat) 0,
    if 0 ≤ src.srcAlpha then inbuffer.getD (4 * p + src.srcAlpha.toNat) 0 else 0⟩

/-! ## The process: events, outcomes, environment -/

/-- Ways in which the process terminates abnormally. -/
inductive Fatal where
  /-- `Cannot open /dev/console`, `Couldn't open /dev/console`. -/
  | cannotOpenConsole
  | ioctlVtGetState
  | ioctlVtActivate
  | ioctlVtWaitActive
  /-- `Error: Couldn't open %s.` for the device or input file. -/
  | cannotOpenDevice
  | ioctlVScreenInfo
  | ioctlFScreenInfo
  /-- `Width, height and bitdepth are mandatory when reading from file`. -/
  | missingFileParameters
  /-- `Not enough memory` after a failed `malloc`. -/
  | notEnoughMemory
  /-- `Error: Not enough memory or data` in `read_framebuffer`. -/
  | notEnoughData
  /-- `%d bits per pixel are not supported!`. -/
  | unsupportedBitDepth (bits : Int)
  /-- `Error: Couldn't fopen %s.` for the destination. -/
  | cannotOpenOutput
  | pngWriteStruct
  | pngInfoStruct
  /-- Integer division by zero (`bits_per_pixel / 8` is zero). -/
  | divisionByZero
  /-- A converter left its buffers. -/
  | memoryFault (f : Fault)
  deriving DecidableEq, Repr

/-- Observable steps of a run. -/
inductive Event where
  /-- Call of `change_to_vt` with this target. -/
  | changeVt (vt_num : Nat)
  /-- The request `VT_ACTIVATE` was issued for this console. -/
  | vtActivate (num : Int)
  /-- The request `VT_WAITACTIVE` was issued for this console. -/
  | vtWaitActive (num : Int)
  | sleep (seconds : Nat)
  /-- Call of `get_framebufferdata`. -/
  | probe (device : String)
  /-- Call of `read_framebuffer`. -/
  | readFramebuffer (device : String) (bytes : Nat) (skip_bytes : Int)
  /-- A converter was called for this bit depth. -/
  | convert (bits : Int)
  /-- The converter returned; `writes` are the byte offsets of the output
  buffer it stored to, in order. -/
  | converted (bits : Int) (writes : List Nat)
  /-- Call of `write_PNG`. -/
  | writePNG (outbuffer : Buffer) (filename : String)
      (width height interlace compression : Int)
  /-- The destination was opened for writing. -/
  | fopen (filename : String)
  /-- The image was handed to libpng and written. -/
  | pngWriteImage
  deriving DecidableEq, Repr

/-- What a piece of the program did: the events it emitted, and its result or
the reason the process ended. -/
structure Run (α : Type) where
  trace : List Event
  result : Except Fatal α

def Run.bind {α β : Type} (r : Run α) (f : α → Run β) : Run β :=
  match r.result with
  | .ok a => ⟨r.trace ++ (f a).trace, (f a).result⟩
  | .error e => ⟨r.trace, .error e⟩

instance : Monad Run where
  pure a := ⟨[], .ok a⟩
  bind := Run.bind

def emit (e : Event) : Run Unit := ⟨[e], .ok ()⟩

/-- The function `fatal_error`, and every other `exit(EXIT_FAILURE)`. -/
def fatal_error {α : Type} (e : Fatal) : Run α := ⟨[], .error e⟩

/-- Outcomes of the console requests made by one call of `change_to_vt`. -/
structure VtEnv where
  openRead : Bool
  /-- Result of `VT_GETSTATE`: the active console, or `none` when it fails. -/
  v_active : Option Nat
  openWrite : Bool
  activate : Bool
  waitActive : Bool
  deriving DecidableEq, Repr

structure fb_bitfield where
  offset : Nat
  length : Nat
  msb_right : Nat
  deriving DecidableEq, Repr

/-- The fields of `struct fb_var_screeninfo` the program reads (all `__u32`). -/
structure fb_var_screeninfo where
  xres : Nat
  yres : Nat
  xres_virtual : Nat
  yres_virtual : Nat
  xoffset : Nat
  yoffset : Nat
  bits_per_pixel : Nat
  red : fb_bitfield
  green : fb_bitfield
  blue : fb_bitfield
  transp : fb_bitfield
  deriving DecidableEq, Repr

/-- The field of `struct fb_fix_screeninfo` the program computes with. -/
structure fb_fix_screeninfo where
  line_length : Nat
  deriving DecidableEq, Repr

/-- Everything the run reads from outside. -/
structure Env where
  /-- Console outcomes for the first and the second call of `change_to_vt`. -/
  vtSwitch : VtEnv
  vtRestore : VtEnv
  /-- Value of the environment variable `FRAMEBUFFER`. -/
  getenvFramebuffer : Option String
  fbOpen : Bool
  varinfo : Option fb_var_screeninfo
  fixinfo : Option fb_fix_screeninfo
  /-- Whether `malloc` of the raw buffer succeeds. -/
  mallocInput : Bool
  /-- Contents of the device or file that is read, `none` when it cannot be opened. -/
  source : Option Buffer
  /-- Whether the `lseek` in `read_framebuffer` moves the file position. -/
  lseekOk : Bool
  /-- Outcome of the single `read` call: `none` when it returns `-1`, `some limit`
  when it transfers at most `limit` bytes (the driver, a signal or the cap of the
  kernel on one transfer can end it before the requested count). -/
  readOutcome : Option Nat
  /-- Whether `malloc` of the output buffer succeeds. -/
  mallocOutput : Bool
  fopenOk : Bool
  pngWriteStructOk : Bool
  pngInfoStructOk : Bool

/-- The variables of `main` set by the option loop. -/
structure Options where
  vt_num : Int
  bitdepth : Int
  height : Int
  width : Int
  waitbfg : Int
  device : Option String
  infile : String
  interlace : Int
  verbose : Int
  png_compression : Int
  outfile : String

def UNDEFINED : Int := -1
def DEFAULT_FB : String := "/dev/fb0"
def MAX_LEN : Nat := 512

/-- The effect of `strncpy` into a zeroed array: the first `n` characters of
`src` (names are taken to be ASCII, so characters and bytes coincide). -/
def strncpy (src : String) (n : Nat) : String := ⟨src.data.take n⟩

/-! ## Console switching, probing, reading -/

def chvt (env : VtEnv) (num : Int) : Run Unit := do
  if ¬ env.openWrite then fatal_error .cannotOpenConsole
  emit (.vtActivate num)
  if ¬ env.activate then fatal_error .ioctlVtActivate
  emit (.vtWaitActive num)
  if ¬ env.waitActive then fatal_error .ioctlVtWaitActive

/-- The argument and the result are `unsigned short`. -/
def change_to_vt (env : VtEnv) (vt_num : Nat) : Run Nat := do
  emit (.changeVt vt_num)
  if ¬ env.openRead then fatal_error .cannotOpenConsole
  match env.v_active with
  | none => fatal_error .ioctlVtGetState
  | some active =>
    let old_vt := active % 65536
    chvt env (vt_num : Int)
    return old_vt

/-- Returns the two screen-info records and the new values of the file-scope
channel offsets. -/
def get_framebufferdata (env : Env) (device : String) (verbose : Int) :
    Run (fb_var_screeninfo × fb_fix_screeninfo × SrcOffsets) := do
  emit (.probe device)
  if ¬ env.fbOpen then fatal_error .cannotOpenDevice
  match env.varinfo with
  | none => fatal_error .ioctlVScreenInfo
  | some fb_varinfo =>
    match env.fixinfo with
    | none => fatal_error .ioctlFScreenInfo
    | some fb_fixinfo =>
      if verbose ≠ 0 ∧ fb_varinfo.bits_per_pixel / 8 = 0 then
        fatal_error .divisionByZero
      let src : SrcOffsets :=
        { srcBlue := toI32 (fb_varinfo.blue.offset >>> 3)
          srcGreen := toI32 (fb_varinfo.green.offset >>> 3)
          srcRed := toI32 (fb_varinfo.red.offset >>> 3)
          srcAlpha :=
            if fb_varinfo.transp.length > 0 then toI32 (fb_varinfo.transp.offset >>> 3)
            else -1 }
      return (fb_varinfo, fb_fixinfo, src)

/-- `bufOk` says that `buf_p` is not `NULL`.  The result is the filled buffer.
The return value of `lseek` is ignored; a negative offset or a failed `lseek`
leaves the position at `0`.  There is one `read`, and any count other than `bytes`
ends the process. -/
def read_framebuffer (env : Env) (device : String) (bytes : Nat) (bufOk : Bool)
    (skip_bytes : Int) : Run Buffer := do
  emit (.readFramebuffer device bytes skip_bytes)
  match env.source with
  | none => fatal_error .cannotOpenDevice
  | some data =>
    let pos := if skip_bytes ≠ 0 ∧ 0 ≤ skip_bytes ∧ env.lseekOk then skip_bytes.toNat else 0
    if ¬ bufOk then fatal_error .notEnoughData
    match env.readOutcome with
    | none => fatal_error .notEnoughData
    | some limit =>
      let got := (data.drop pos).take (min bytes limit)
      if got.length ≠ bytes then fatal_error .notEnoughData
      return got

/-! ## Encoding boundary and dispatch -/

def write_PNG (env : Env) (outbuffer : Buffer) (filename : String)
    (width height interlace compression : Int) : Run Unit := do
  emit (.writePNG outbuffer filename width height interlace compression)
  if filename ≠ "-" then
    emit (.fopen filename)
    if ¬ env.fopenOk then fatal_error .cannotOpenOutput
  if ¬ env.pngWriteStructOk then fatal_error .pngWriteStruct
  if ¬ env.pngInfoStructOk then fatal_error .pngInfoStruct
  emit .pngWriteImage

/-- A converter call inside `convert_and_write`, between its two events. -/
def runConverter (bits : Int) (r : Except Fault Mem) : Run Buffer := do
  emit (.convert bits)
  match r with
  | .error f => fatal_error (.memoryFault f)
  | .ok m =>
    emit (.converted bits m.writes)
    return m.out

/-- The expression `(size_t)width * height * 4`. -/
def bufsize (width height : Int) : Nat :=
  toU64 width * toU64 height % 18446744073709551616 * 4 % 18446744073709551616

/-- Allocates and zeroes the output buffer, then dispatches on the bit depth. -/
def convert_and_write (env : Env) (src : SrcOffsets) (inbuffer : Buffer) (filename : String)
    (width height bits interlace compression : Int) : Run Unit := do
  if ¬ env.mallocOutput then fatal_error .notEnoughMemory
  let outbuffer : Mem := ⟨constBuffer (bufsize width height) 0, []⟩
  if bits = 15 then
    let out ← runConverter 15 (convert1555to32 width height inbuffer outbuffer)
    write_PNG env out filename width height interlace compression
  else if bits = 16 then
    let out ← runConverter 16 (convert565to32 width height inbuffer outbuffer)
    write_PNG env out filename width height interlace compression
  else if bits = 24 then
    let out ← runConverter 24 (convert888to32 src width height inbuffer outbuffer)
    write_PNG env out filename width height interlace compression
  else if bits = 32 then
    let out ← runConverter 32 (convert8888to32 src width height inbuffer outbuffer)
    write_PNG env out filename width height interlace compression
  else
    fatal_error (.unsupportedBitDepth bits)

/-! ## Orchestration (`main` after the option loop) -/

/-- The capture parameters as they stand after lines 496-530 of `main`. -/
structure Resolved where
  infile : String
  bitdepth : Int
  width : Int
  height : Int
  skip_bytes : Int
  src : SrcOffsets

/-- Lines 490-494: the optional switch.  Returns `old_vt`. -/
def main_switch (opts : Options) (env : Env) : Run Int := do
  if UNDEFINED ≠ opts.vt_num then
    let old_vt ← change_to_vt env.vtSwitch (opts.vt_num % 65536).toNat
    if opts.waitbfg ≠ 0 then emit (.sleep 3)
    return (old_vt : Int)
  else
    return UNDEFINED

/-- Lines 496-530: file mode checks its parameters, device mode probes. -/
def main_resolve (opts : Options) (env : Env) : Run Resolved := do
  if opts.infile.length > 0 then
    if UNDEFINED = opts.bitdepth ∨ UNDEFINED = opts.width ∨ UNDEFINED = opts.height then
      fatal_error .missingFileParameters
    else
      return ⟨opts.infile, opts.bitdepth, opts.width, opts.height, 0, initialOffsets⟩
  else
    let device := opts.device.getD (env.getenvFramebuffer.getD DEFAULT_FB)
    let (fb_varinfo, fb_fixinfo, src) ← get_framebufferdata env device opts.verbose
    let bitdepth :=
      if UNDEFINED = opts.bitdepth then toI32 fb_varinfo.bits_per_pixel else opts.bitdepth
    if UNDEFINED = opts.width ∧ fb_varinfo.bits_per_pixel / 8 = 0 then
      fatal_error .divisionByZero
    let width :=
      if UNDEFINED = opts.width then
        toI32 (toU32 (toI32 fb_fixinfo.line_length) / (fb_varinfo.bits_per_pixel / 8))
      else opts.width
    let height := if UNDEFINED = opts.height then toI32 fb_varinfo.yres else opts.height
    let skip_bytes :=
      toI32 (fb_varinfo.yoffset * fb_varinfo.xres % 4294967296
        * (fb_varinfo.bits_per_pixel >>> 3) % 4294967296)
    return ⟨strncpy device (MAX_LEN - 1), bitdepth, width, height, skip_bytes, src⟩

/-- The expression `((unsigned int)bitdepth + 7) >> 3`. -/
def bytesPerPixel (bitdepth : Int) : Nat := ((toU32 bitdepth + 7) % 4294967296) >>> 3

/-- Lines 532-541: allocation of the raw buffer and the read. -/
def main_capture (r : Resolved) (env : Env) : Run Buffer := do
  let buf_size := toU32 (r.width * r.height) * bytesPerPixel r.bitdepth % 4294967296
  if ¬ env.mallocInput then fatal_error .notEnoughMemory
  read_framebuffer env r.infile buf_size true r.skip_bytes

/-- Lines 543-544: the optional restore. -/
def main_restore (old_vt : Int) (env : Env) : Run Unit := do
  if UNDEFINED ≠ old_vt then
    let _ ← change_to_vt env.vtRestore (old_vt % 65536).toNat

def main (opts : Options) (env : Env) : Run Unit := do
  let old_vt ← main_switch opts env
  let r ← main_resolve opts env
  let buf_p ← main_capture r env
  main_restore old_vt env
  convert_and_write env r.src buf_p opts.outfile r.width r.height r.bitdepth opts.interlace
    opts.png_compression

/-- Targets of the calls of `change_to_vt` in a trace, in order. -/
def changeVtCalls (trace : List Event) : List Nat :=
  trace.filterMap fun e => match e with
    | .changeVt n => some n
    | _ => none

/-- The buffer in which, inside every pixel of `k` bytes, the byte at position `j`
has been moved to position `s j`. -/
def permutePixels (k : Nat) (hk : 0 < k) (s : Equiv.Perm (Fin k)) (inbuffer : Buffer) : Buffer :=
  (List.range inbuffer.length).map fun n =>
    inbuffer.getD (k * (n / k) + (s.symm ⟨n % k, Nat.mod_lt n hk⟩).val) 0

/-- A channel offset inside the pixel is replaced by its image under `s`; any other
value (such as the negative marker of an absent alpha channel) is kept. -/
def permuteOffset (k : Nat) (s : Equiv.Perm (Fin k)) (x : Int) : Int :=
  if h : 0 ≤ x ∧ x.toNat < k then ((s ⟨x.toNat, h.2⟩).val : Int) else x

def permuteOffsets (k : Nat) (s : Equiv.Perm (Fin k)) (src : SrcOffsets) : SrcOffsets :=
  ⟨permuteOffset k s src.srcBlue, permuteOffset k s src.srcGreen, permuteOffset k s src.srcRed,
    permuteOffset k s src.srcAlpha⟩

/-- The buffer of `n` bytes whose byte at index `i` is `f i`. -/
def patternBuffer (n : Nat) (f : Nat → Nat) : Buffer := (List.range n).map f

/-- A 24-bit input for a 3 x 477218589 image: all bytes `0` except byte 2. -/
def wrapInput888 : Buffer := patternBuffer 4294967301 fun i => if i = 2 then 1 else 0

/-- The values of a C `int`. -/
def isInt (x : Int) : Prop := -2147483648 ≤ x ∧ x < 2147483648

instance (x : Int) : Decidable (isInt x) := by
  unfold isInt
  exact inferInstance

/-- The bit depths for which the `switch` of `convert_and_write` has a case. -/
def supportedDepth (bits : Int) : Prop := bits = 15 ∨ bits = 16 ∨ bits = 24 ∨ bits = 32

instance (bits : Int) : Decidable (supportedDepth bits) := by
  unfold supportedDepth
  exact inferInstance

/-- The converter call that the `switch` of `convert_and_write` makes for a
supported bit depth. -/
def selectedConverter (src : SrcOffsets) (bits width height : Int) (inbuffer : Buffer)
    (outbuffer : Mem) : Except Fault Mem :=
  if bits = 15 then convert1555to32 width height inbuffer outbuffer
  else if bits = 16 then convert565to32 width height inbuffer outbuffer
  else if bits = 24 then convert888to32 src width height inbuffer outbuffer
  else convert8888to32 src width height inbuffer outbuffer

/-- The channel offsets a converter uses lie inside a pixel: blue, green, red for
24 and 32 bits, and alpha for 32 bits when it is present. -/
def offsetsOkFor (bits : Int) (src : SrcOffsets) : Prop :=
  (bits = 24 → offsetOk 3 src.srcBlue ∧ offsetOk 3 src.srcGreen ∧ offsetOk 3 src.srcRed) ∧
  (bits = 32 → offsetOk 4 src.srcBlue ∧ offsetOk 4 src.srcGreen ∧ offsetOk 4 src.srcRed ∧
    (0 ≤ src.srcAlpha → offsetOk 4 src.srcAlpha))

instance (bits : Int) (src : SrcOffsets) : Decidable (offsetsOkFor bits src) := by
  unfold offsetsOkFor
  exact inferInstance

/-- Bit depths of the converter calls in a trace, in order. -/
def convertCalls (trace : List Event) : List Int :=
  trace.filterMap fun e => match e with
    | .convert bits => some bits
    | _ => none

/-- Bit depths of the converters that returned, in order. -/
def convertReturns (trace : List Event) : List Int :=
  trace.filterMap fun e => match e with
    | .converted bits _ => some bits
    | _ => none

/-- Buffers handed to `write_PNG` in a trace, in order. -/
def encoderCalls (trace : List Event) : List Buffer :=
  trace.filterMap fun e => match e with
    | .writePNG outbuffer _ _ _ _ _ => some outbuffer
    | _ => none

/-- Arguments of the calls of `read_framebuffer` in a trace, in order. -/
def readCalls (trace : List Event) : List (String × Nat × Int) :=
  trace.filterMap fun e => match e with
    | .readFramebuffer device bytes skip_bytes => some (device, bytes, skip_bytes)
    | _ => none

/-- Destinations opened in a trace, in order. -/
def fopenCalls (trace : List Event) : List String :=
  trace.filterMap fun e => match e with
    | .fopen filename => some filename
    | _ => none

/-- An environment in which every request succeeds: console 1 is active, the
device shows 1366 x 768 at 32 bits per pixel with lines padded to 1376 pixels
(5504 bytes) and the second half of a double-height virtual screen visible. -/
def sampleEnv : Env :=
  { vtSwitch := ⟨true, some 1, true, true, true⟩
    vtRestore := ⟨true, some 2, true, true, true⟩
    getenvFramebuffer := none
    fbOpen := true
    varinfo := some ⟨1366, 768, 1366, 1536, 0, 768, 32, ⟨16, 8, 0⟩, ⟨8, 8, 0⟩, ⟨0, 8, 0⟩, ⟨24, 0, 0⟩⟩
    fixinfo := some ⟨5504⟩
    mallocInput := true
    source := some [10, 20, 30, 40]
    lseekOk := true
    readOutcome := some 4096
    mallocOutput := true
    fopenOk := true
    pngWriteStructOk := true
    pngInfoStructOk := true }

/-- Options of a capture from the default device, nothing overridden. -/
def deviceOptions : Options :=
  { vt_num := UNDEFINED, bitdepth := UNDEFINED, height := UNDEFINED, width := UNDEFINED,
    waitbfg := 0, device := none, infile := "", interlace := 0, verbose := 0,
    png_compression := -1, outfile := "out.png" }

/-- Options of a capture of one 32-bit pixel from the file `dump.raw`, taken on
console 2. -/
def fileOptions : Options :=
  { deviceOptions with vt_num := 2, bitdepth := 32, height := 1, width := 1, infile := "dump.raw" }

/-! ## Lemmas and theorems -/

theorem toU32_natCast (n : Nat) : toU32 (n : Int) = n % 4294967296 := by
  unfold toU32
  omega

theorem loopBound_nat (w h : Nat) :
    toU32 (h : Int) * toU32 (w : Int) % 4294967296 = (w * h) % 4294967296 := by
  rw [toU32_natCast, toU32_natCast, ← Nat.mul_mod, Nat.mul_comm]

theorem forLoop_eq_iter (body : Nat → Mem → Except Fault Mem) (step N : Nat)
    (hstep : 0 < step) (hN : N * step < 4294967296) :
    ∀ (k p fuel : Nat) (m : Mem), p + k = N → k ≤ fuel →
      forLoop fuel (N * step) step body (p * step) m = iter body step p k m := by
  intro k
  induction k with
  | zero =>
    intro p fuel m hp _
    have : p = N := by omega
    subst this
    unfold forLoop
    simp [iter]
  | succ k ih =>
    intro p fuel m hp hf
    obtain ⟨fuel, rfl⟩ : ∃ f, fuel = f + 1 := ⟨fuel - 1, by omega⟩
    have hlt : p * step < N * step := Nat.mul_lt_mul_of_pos_right (by omega) hstep
    have hle : (p + 1) * step ≤ N * step := Nat.mul_le_mul_right step (by omega)
    have hnext : (p * step + step) % 4294967296 = (p + 1) * step := by
      rw [Nat.add_mul, Nat.one_mul] at hle ⊢
      exact Nat.mod_eq_of_lt (by omega)
    unfold forLoop
    simp only [hlt, if_true, iter, hnext]
    cases body (p * step) m with
    | error e => rfl
    | ok m1 => exact ih (p + 1) fuel m1 (by omega) (by omega)

@[simp] theorem writePixel_length (m : Mem) (p : Nat) (x : BGRA) :
    (writePixel m p x).out.length = m.out.length := by
  simp [writePixel]

theorem iter_eq_paint (body : Nat → Mem → Except Fault Mem) (step N L : Nat) (f : Nat → BGRA)
    (hbody : ∀ p m, p < N → m.out.length = L → body (p * step) m = .ok (writePixel m p (f p))) :
    ∀ (k p : Nat) (m : Mem), p + k ≤ N → m.out.length = L →
      iter body step p k m = .ok (paint f p k m) := by
  intro k
  induction k with
  | zero => intro p m _ _; rfl
  | succ k ih =>
    intro p m hp hL
    simp only [iter, paint, hbody p m (by omega) hL]
    exact ih (p + 1) _ (by omega) (by simp [hL])

@[simp] theorem paint_length (f : Nat → BGRA) (k p : Nat) (m : Mem) :
    (paint f p k m).out.length = m.out.length := by
  induction k generalizing p m with
  | zero => rfl
  | succ k ih => simp [paint, ih]

theorem paint_writes (f : Nat → BGRA) (k p : Nat) (m : Mem) :
    (paint f p k m).writes = m.writes ++ List.range' (4 * p) (4 * k) := by
  induction k generalizing p m with
  | zero => simp [paint]
  | succ k ih =>
    rw [paint, ih, writePixel]
    have h1 : 4 * (k + 1) = 4 * k + 1 + 1 + 1 + 1 := by omega
    have h2 : 4 * (p + 1) = 4 * p + 1 + 1 + 1 + 1 := by omega
    simp only [h1, h2, List.range'_succ, List.append_assoc, List.cons_append, List.nil_append]

theorem writePixel_get_other (m : Mem) (p : Nat) (x : BGRA) (idx : Nat)
    (h : idx < 4 * p ∨ 4 * p + 4 ≤ idx) : (writePixel m p x).out[idx]? = m.out[idx]? := by
  simp only [writePixel, List.getElem?_set]
  have h0 : ¬ (4 * p = idx) := by omega
  have h1 : ¬ (4 * p + 1 = idx) := by omega
  have h2 : ¬ (4 * p + 2 = idx) := by omega
  have h3 : ¬ (4 * p + 3 = idx) := by omega
  simp [h0, h1, h2, h3]

theorem writePixel_get (m : Mem) (p : Nat) (x : BGRA) (c : Nat) (hc : c < 4)
    (h : 4 * p + 3 < m.out.length) :
    (writePixel m p x).out[4 * p + c]? = some (x.chan c % 256) := by
  have hc4 : c = 0 ∨ c = 1 ∨ c = 2 ∨ c = 3 := by omega
  rcases hc4 with rfl | rfl | rfl | rfl <;>
    simp [writePixel, List.getElem?_set, BGRA.chan] <;> omega

theorem paint_get_lt (f : Nat → BGRA) (k p : Nat) (m : Mem) (idx : Nat) (h : idx < 4 * p) :
    (paint f p k m).out[idx]? = m.out[idx]? := by
  induction k generalizing p m with
  | zero => rfl
  | succ k ih =>
    rw [paint, ih (p + 1) _ (by omega), writePixel_get_other m p (f p) idx (Or.inl h)]

theorem paint_get_ge (f : Nat → BGRA) (k p : Nat) (m : Mem) (idx : Nat)
    (h : 4 * (p + k) ≤ idx) : (paint f p k m).out[idx]? = m.out[idx]? := by
  induction k generalizing p m with
  | zero => rfl
  | succ k ih =>
    rw [paint, ih (p + 1) _ (by omega), writePixel_get_other m p (f p) idx (Or.inr (by omega))]

theorem paint_get (f : Nat → BGRA) (k p : Nat) (m : Mem) (q c : Nat) (hc : c < 4)
    (hq : p ≤ q) (hqk : q < p + k) (hlen : 4 * q + 3 < m.out.length) :
    (paint f p k m).out[4 * q + c]? = some ((f q).chan c % 256) := by
  induction k generalizing p m with
  | zero => omega
  | succ k ih =>
    rw [paint]
    by_cases hpq : q = p
    · subst hpq
      rw [paint_get_lt f k (q + 1) _ (4 * q + c) (by omega)]
      exact writePixel_get m q (f q) c hc hlen
    · exact ih (p + 1) _ (by omega) (by omega) (by simpa using hlen)

theorem load_ok (inbuffer : Buffer) (idx : Nat) (h : idx < inbuffer.length) :
    load inbuffer idx = .ok (inbuffer.getD idx 0) := by
  simp [load, List.getD, List.getElem?_eq_getElem h]

theorem store_ok (m : Mem) (idx v : Nat) (h : idx < m.out.length) :
    store m idx v = .ok ⟨m.out.set idx (v % 256), m.writes ++ [idx]⟩ := by
  simp [store, h]

@[simp] theorem ok_bind {α β : Type} (a : α) (f : α → Except Fault β) :
    (Except.ok a >>= f) = f a := rfl

theorem outIndex_even (p c : Nat) (hp : 4 * p + 3 < 4294967296) (hc : c < 4) :
    (((p * 2) <<< 1) % 4294967296 + c) % 4294967296 = 4 * p + c := by
  rw [Nat.shiftLeft_eq]
  omega

theorem toU32_Blue : toU32 Blue = 0 := rfl
theorem toU32_Green : toU32 Green = 1 := rfl
theorem toU32_Red : toU32 Red = 2 := rfl
theorem toU32_Alpha : toU32 Alpha = 3 := rfl

theorem convert565to32_body_eq (N : Nat) (inbuffer : Buffer) (p : Nat) (m : Mem)
    (hN : N * 4 ≤ 4294967296) (hin : inbuffer.length = N * 2) (hp : p < N)
    (hout : m.out.length = N * 4) :
    convert565to32_body inbuffer (p * 2) m = .ok (writePixel m p (spec565 inbuffer p)) := by
  have i0 : p * 2 < inbuffer.length := by omega
  have i1 : (p * 2 + 1) % 4294967296 < inbuffer.length := by omega
  have e1 : (p * 2 + 1) % 4294967296 = 2 * p + 1 := by omega
  have e0 : p * 2 = 2 * p := by omega
  have e2 : (2 * p + 1) % 4294967296 = 2 * p + 1 := by omega
  unfold convert565to32_body
  simp only [toU32_Blue, toU32_Green, toU32_Red, toU32_Alpha,
    outIndex_even p _ (by omega) (by decide : 0 < 4), outIndex_even p _ (by omega) (by decide : 1 < 4),
    outIndex_even p _ (by omega) (by decide : 2 < 4), outIndex_even p _ (by omega) (by decide : 3 < 4)]
  rw [load_ok _ _ i0, load_ok _ _ i1]
  simp only [ok_bind, bind_assoc]
  rw [store_ok _ _ _ (by omega)]
  simp only [ok_bind]
  rw [store_ok _ _ _ (by simp; omega)]
  simp only [ok_bind]
  rw [store_ok _ _ _ (by simp; omega)]
  simp only [ok_bind]
  rw [store_ok _ _ _ (by simp; omega)]
  simp [writePixel, spec565, e0, e2]

theorem convert1555to32_body_eq (N : Nat) (inbuffer : Buffer) (p : Nat) (m : Mem)
    (hN : N * 4 ≤ 4294967296) (hin : inbuffer.length = N * 2) (hp : p < N)
    (hout : m.out.length = N * 4) :
    convert1555to32_body inbuffer (p * 2) m = .ok (writePixel m p (spec1555 inbuffer p)) := by
  have i0 : p * 2 < inbuffer.length := by omega
  have i1 : (p * 2 + 1) % 4294967296 < inbuffer.length := by omega
  have e0 : p * 2 = 2 * p := by omega
  have e2 : (2 * p + 1) % 4294967296 = 2 * p + 1 := by omega
  unfold convert1555to32_body
  simp only [toU32_Blue, toU32_Green, toU32_Red, toU32_Alpha,
    outIndex_even p _ (by omega) (by decide : 0 < 4), outIndex_even p _ (by omega) (by decide : 1 < 4),
    outIndex_even p _ (by omega) (by decide : 2 < 4), outIndex_even p _ (by omega) (by decide : 3 < 4)]
  rw [load_ok _ _ i0, load_ok _ _ i1]
  simp only [ok_bind, bind_assoc]
  rw [store_ok _ _ _ (by omega)]
  simp only [ok_bind]
  rw [store_ok _ _ _ (by simp; omega)]
  simp only [ok_bind]
  rw [store_ok _ _ _ (by simp; omega)]
  simp only [ok_bind]
  rw [store_ok _ _ _ (by simp; omega)]
  simp [writePixel, spec1555, e0, e2]

theorem outIndex_unit (p c : Nat) (hp : 4 * p + 3 < 4294967296) (hc : c < 4) :
    (((p * 1) <<< 2) % 4294967296 + c) % 4294967296 = 4 * p + c := by
  rw [Nat.shiftLeft_eq]
  omega

theorem toU32_offset (k x : Int) (hk : k ≤ 4) (h : offsetOk k x) : toU32 x = x.toNat := by
  unfold offsetOk at h
  unfold toU32
  omega

theorem offset_toNat_lt (k : Nat) (x : Int) (h : offsetOk k x) : x.toNat < k := by
  unfold offsetOk at h
  omega

theorem convert888to32_body_eq (src : SrcOffsets) (N : Nat) (inbuffer : Buffer) (p : Nat)
    (m : Mem) (hN : N * 4 ≤ 4294967296) (hin : inbuffer.length = N * 3) (hp : p < N)
    (hout : m.out.length = N * 4) (hb : offsetOk 3 src.srcBlue) (hg : offsetOk 3 src.srcGreen)
    (hr : offsetOk 3 src.srcRed) :
    convert888to32_body src inbuffer (p * 1) m = .ok (writePixel m p (spec888 src inbuffer p)) := by
  have lb := offset_toNat_lt 3 _ hb
  have lg := offset_toNat_lt 3 _ hg
  have lr := offset_toNat_lt 3 _ hr
  have eb : (p * 1 * 3 % 4294967296 + src.srcBlue.toNat) % 4294967296
      = 3 * p + src.srcBlue.toNat := by omega
  have eg : (p * 1 * 3 % 4294967296 + src.srcGreen.toNat) % 4294967296
      = 3 * p + src.srcGreen.toNat := by omega
  have er : (p * 1 * 3 % 4294967296 + src.srcRed.toNat) % 4294967296
      = 3 * p + src.srcRed.toNat := by omega
  unfold convert888to32_body
  simp only [toU32_Blue, toU32_Green, toU32_Red, toU32_Alpha,
    toU32_offset 3 _ (by decide) hb, toU32_offset 3 _ (by decide) hg,
    toU32_offset 3 _ (by decide) hr, eb, eg, er,
    outIndex_unit p _ (by omega) (by decide : 0 < 4), outIndex_unit p _ (by omega) (by decide : 1 < 4),
    outIndex_unit p _ (by omega) (by decide : 2 < 4), outIndex_unit p _ (by omega) (by decide : 3 < 4)]
  rw [load_ok _ _ (by omega : 3 * p + src.srcBlue.toNat < inbuffer.length),
    load_ok _ _ (by omega : 3 * p + src.srcGreen.toNat < inbuffer.length),
    load_ok _ _ (by omega : 3 * p + src.srcRed.toNat < inbuffer.length)]
  simp only [ok_bind, bind_assoc]
  rw [store_ok _ _ _ (by omega)]
  simp only [ok_bind]
  rw [store_ok _ _ _ (by simp; omega)]
  simp only [ok_bind]
  rw [store_ok _ _ _ (by simp; omega)]
  simp only [ok_bind]
  rw [store_ok _ _ _ (by simp; omega)]
  simp [writePixel, spec888]

theorem convert8888to32_body_eq (src : SrcOffsets) (N : Nat) (inbuffer : Buffer) (p : Nat)
    (m : Mem) (hN : N * 4 ≤ 4294967296) (hin : inbuffer.length = N * 4) (hp : p < N)
    (hout : m.out.length = N * 4) (hb : offsetOk 4 src.srcBlue) (hg : offsetOk 4 src.srcGreen)
    (hr : offsetOk 4 src.srcRed) (ha : 0 ≤ src.srcAlpha → offsetOk 4 src.srcAlpha) :
    convert8888to32_body src inbuffer (p * 1) m
      = .ok (writePixel m p (spec8888 src inbuffer p)) := by
  have lb := offset_toNat_lt 4 _ hb
  have lg := offset_toNat_lt 4 _ hg
  have lr := offset_toNat_lt 4 _ hr
  have eb : (p * 1 * 4 % 4294967296 + src.srcBlue.toNat) % 4294967296
      = 4 * p + src.srcBlue.toNat := by omega
  have eg : (p * 1 * 4 % 4294967296 + src.srcGreen.toNat) % 4294967296
      = 4 * p + src.srcGreen.toNat := by omega
  have er : (p * 1 * 4 % 4294967296 + src.srcRed.toNat) % 4294967296
      = 4 * p + src.srcRed.toNat := by omega
  unfold convert8888to32_body
  simp only [toU32_Blue, toU32_Green, toU32_Red, toU32_Alpha,
    toU32_offset 4 _ (by decide) hb, toU32_offset 4 _ (by decide) hg,
    toU32_offset 4 _ (by decide) hr, eb, eg, er,
    outIndex_unit p _ (by omega) (by decide : 0 < 4), outIndex_unit p _ (by omega) (by decide : 1 < 4),
    outIndex_unit p _ (by omega) (by decide : 2 < 4), outIndex_unit p _ (by omega) (by decide : 3 < 4)]
  rw [load_ok _ _ (by omega : 4 * p + src.srcBlue.toNat < inbuffer.length),
    load_ok _ _ (by omega : 4 * p + src.srcGreen.toNat < inbuffer.length),
    load_ok _ _ (by omega : 4 * p + src.srcRed.toNat < inbuffer.length)]
  simp only [ok_bind, bind_assoc]
  rw [store_ok _ _ _ (by omega)]
  simp only [ok_bind]
  rw [store_ok _ _ _ (by simp; omega)]
  simp only [ok_bind]
  rw [store_ok _ _ _ (by simp; omega)]
  simp only [ok_bind]
  by_cases hα : 0 ≤ src.srcAlpha
  · have hα4 := ha hα
    have la := offset_toNat_lt 4 _ hα4
    have ea : (p * 1 * 4 % 4294967296 + src.srcAlpha.toNat) % 4294967296
        = 4 * p + src.srcAlpha.toNat := by omega
    simp only [hα, if_true, toU32_offset 4 _ (by decide) hα4, ea]
    rw [load_ok _ _ (by omega : 4 * p + src.srcAlpha.toNat < inbuffer.length)]
    simp only [ok_bind]
    rw [store_ok _ _ _ (by simp; omega)]
    simp [writePixel, spec8888, hα]
  · simp only [hα, if_false]
    rw [store_ok _ _ _ (by simp; omega)]
    simp [writePixel, spec8888, hα]

theorem forLoop_eq_paint (body : Nat → Mem → Except Fault Mem) (step N : Nat) (f : Nat → BGRA)
    (m : Mem) (hstep : 0 < step) (hN : N * step < 4294967296)
    (hbody : ∀ p m1, p < N → m1.out.length = m.out.length →
      body (p * step) m1 = .ok (writePixel m1 p (f p))) :
    forLoop loopFuel (N * step) step body 0 m = .ok (paint f 0 N m) := by
  have h0 : (0 : Nat) = 0 * step := by simp
  have hfuel : N ≤ loopFuel := by
    have : N ≤ N * step := Nat.le_mul_of_pos_right N hstep
    unfold loopFuel
    omega
  conv => lhs; arg 5; rw [h0]
  rw [forLoop_eq_iter body step N hstep hN N 0 loopFuel m (by omega) hfuel]
  exact iter_eq_paint body step N m.out.length f hbody N 0 m (by omega) rfl

theorem convert565to32_eq_paint (width height : Nat) (inbuffer : Buffer) (outbuffer : Mem)
    (hdim : width * height * 4 ≤ 4294967296) (hin : inbuffer.length = width * height * 2)
    (hout : outbuffer.out.length = width * height * 4) :
    convert565to32 width height inbuffer outbuffer
      = .ok (paint (spec565 inbuffer) 0 (width * height) outbuffer) := by
  unfold convert565to32
  have hb : toU32 (height : Int) * toU32 (width : Int) % 4294967296 * 2 % 4294967296
      = width * height * 2 := by
    rw [loopBound_nat]
    omega
  rw [hb]
  exact forLoop_eq_paint _ 2 (width * height) _ outbuffer (by decide) (by omega)
    (fun p m1 hp hm => convert565to32_body_eq (width * height) inbuffer p m1 hdim hin hp
      (by omega))

theorem convert1555to32_eq_paint (width height : Nat) (inbuffer : Buffer) (outbuffer : Mem)
    (hdim : width * height * 4 ≤ 4294967296) (hin : inbuffer.length = width * height * 2)
    (hout : outbuffer.out.length = width * height * 4) :
    convert1555to32 width height inbuffer outbuffer
      = .ok (paint (spec1555 inbuffer) 0 (width * height) outbuffer) := by
  unfold convert1555to32
  have hb : toU32 (height : Int) * toU32 (width : Int) % 4294967296 * 2 % 4294967296
      = width * height * 2 := by
    rw [loopBound_nat]
    omega
  rw [hb]
  exact forLoop_eq_paint _ 2 (width * height) _ outbuffer (by decide) (by omega)
    (fun p m1 hp hm => convert1555to32_body_eq (width * height) inbuffer p m1 hdim hin hp
      (by omega))

theorem convert888to32_eq_paint (src : SrcOffsets) (width height : Nat) (inbuffer : Buffer)
    (outbuffer : Mem) (hdim : width * height * 4 ≤ 4294967296)
    (hin : inbuffer.length = width * height * 3)
    (hout : outbuffer.out.length = width * height * 4) (hb : offsetOk 3 src.srcBlue)
    (hg : offsetOk 3 src.srcGreen) (hr : offsetOk 3 src.srcRed) :
    convert888to32 src width height inbuffer outbuffer
      = .ok (paint (spec888 src inbuffer) 0 (width * height) outbuffer) := by
  unfold convert888to32
  have hbd : toU32 (height : Int) * toU32 (width : Int) % 4294967296 = width * height * 1 := by
    rw [loopBound_nat]
    omega
  rw [hbd]
  exact forLoop_eq_paint _ 1 (width * height) _ outbuffer (by decide) (by omega)
    (fun p m1 hp hm => convert888to32_body_eq src (width * height) inbuffer p m1 hdim hin hp
      (by omega) hb hg hr)

theorem convert8888to32_eq_paint (src : SrcOffsets) (width height : Nat) (inbuffer : Buffer)
    (outbuffer : Mem) (hdim : width * height * 4 ≤ 4294967296)
    (hin : inbuffer.length = width * height * 4)
    (hout : outbuffer.out.length = width * height * 4) (hb : offsetOk 4 src.srcBlue)
    (hg : offsetOk 4 src.srcGreen) (hr : offsetOk 4 src.srcRed)
    (ha : 0 ≤ src.srcAlpha → offsetOk 4 src.srcAlpha) :
    convert8888to32 src width height inbuffer outbuffer
      = .ok (paint (spec8888 src inbuffer) 0 (width * height) outbuffer) := by
  unfold convert8888to32
  have hbd : toU32 (height : Int) * toU32 (width : Int) % 4294967296 = width * height * 1 := by
    rw [loopBound_nat]
    omega
  rw [hbd]
  exact forLoop_eq_paint _ 1 (width * height) _ outbuffer (by decide) (by omega)
    (fun p m1 hp hm => convert8888to32_body_eq src (width * height) inbuffer p m1 hdim hin hp
      (by omega) hb hg hr ha)

theorem shl3_and31_lt (x : Nat) : (x &&& 0x1F) <<< 3 < 256 := by
  have h : x &&& 0x1F ≤ 0x1F := Nat.and_le_right
  rw [Nat.shiftLeft_eq]
  omega

theorem and248_lt (x : Nat) : x &&& 0xF8 < 256 := by
  have h : x &&& 0xF8 ≤ 0xF8 := Nat.and_le_right
  omega

theorem shl1_and124_lt (x : Nat) : (x &&& 0x7C) <<< 1 < 256 := by
  have h : x &&& 0x7C ≤ 0x7C := Nat.and_le_right
  rw [Nat.shiftLeft_eq]
  omega

theorem green565_lt (lo hi : Nat) :
    (((hi &&& 0x07) <<< 3) ||| ((lo &&& 0xE0) >>> 5)) <<< 2 < 256 := by
  have h1 : hi &&& 0x07 ≤ 0x07 := Nat.and_le_right
  have h2 : lo &&& 0xE0 ≤ 0xE0 := Nat.and_le_right
  have h3 : (hi &&& 0x07) <<< 3 < 2 ^ 6 := by
    rw [Nat.shiftLeft_eq]
    omega
  have h4 : (lo &&& 0xE0) >>> 5 < 2 ^ 6 := by
    rw [Nat.shiftRight_eq_div_pow]
    omega
  have h5 := Nat.or_lt_two_pow h3 h4
  rw [Nat.shiftLeft_eq]
  omega

theorem green1555_lt (lo hi : Nat) :
    (((hi &&& 0x03) <<< 3) ||| ((lo &&& 0xE0) >>> 5)) <<< 3 < 256 := by
  have h1 : hi &&& 0x03 ≤ 0x03 := Nat.and_le_right
  have h2 : lo &&& 0xE0 ≤ 0xE0 := Nat.and_le_right
  have h3 : (hi &&& 0x03) <<< 3 < 2 ^ 5 := by
    rw [Nat.shiftLeft_eq]
    omega
  have h4 : (lo &&& 0xE0) >>> 5 < 2 ^ 5 := by
    rw [Nat.shiftRight_eq_div_pow]
    omega
  have h5 := Nat.or_lt_two_pow h3 h4
  rw [Nat.shiftLeft_eq]
  omega

theorem forLoop_done (fuel bound step : Nat) (body : Nat → Mem → Except Fault Mem)
    (i : Nat) (m : Mem) (h : ¬ i < bound) : forLoop fuel bound step body i m = .ok m := by
  unfold forLoop
  simp [h]

theorem paint_pixel (f : Nat → BGRA) (N : Nat) (m : Mem) (p : Nat) (hp : p < N)
    (hlen : 4 * N ≤ m.out.length) :
    (paint f 0 N m).out[4 * p]? = some ((f p).b % 256) ∧
    (paint f 0 N m).out[4 * p + 1]? = some ((f p).g % 256) ∧
    (paint f 0 N m).out[4 * p + 2]? = some ((f p).r % 256) ∧
    (paint f 0 N m).out[4 * p + 3]? = some ((f p).a % 256) := by
  have g := fun c hc => paint_get f N 0 m p c hc (by omega) (by omega) (by omega)
  exact ⟨g 0 (by decide), g 1 (by decide), g 2 (by decide), g 3 (by decide)⟩

/-- C1, as amended: when `width * height * 4` does not exceed `2^32`, `convert565to32`
succeeds on every input buffer of `width * height` two-byte pixels and writes, for
each pixel `p` with bytes `lo`, `hi`, blue `(lo & 0x1F) << 3`, green
`(((hi & 0x07) << 3) | ((lo & 0xE0) >> 5)) << 2`, red `hi & 0xF8` and alpha `0` at
offsets `4p .. 4p+3`. -/
theorem convert565to32_decodes (width height : Nat) (inbuffer : Buffer) (outbuffer : Mem)
    (hdim : width * height * 4 ≤ 4294967296)
    (hin : inbuffer.length = width * height * 2)
    (hout : outbuffer.out.length = width * height * 4) :
    ∃ m, convert565to32 width height inbuffer outbuffer = .ok m ∧
      m.out.length = width * height * 4 ∧
      ∀ p lo hi, p < width * height →
        inbuffer[2 * p]? = some lo → inbuffer[2 * p + 1]? = some hi →
        m.out[4 * p]? = some ((lo &&& 0x1F) <<< 3) ∧
        m.out[4 * p + 1]? = some ((((hi &&& 0x07) <<< 3) ||| ((lo &&& 0xE0) >>> 5)) <<< 2) ∧
        m.out[4 * p + 2]? = some (hi &&& 0xF8) ∧
        m.out[4 * p + 3]? = some 0 := by
  refine ⟨_, convert565to32_eq_paint width height inbuffer outbuffer hdim hin hout, ?_, ?_⟩
  · simp [hout]
  · intro p lo hi hp hlo hhi
    have g := paint_pixel (spec565 inbuffer) (width * height) outbuffer p hp (by omega)
    simp only [spec565, List.getD_eq_getElem?_getD, hlo, hhi, Option.getD_some,
      Nat.mod_eq_of_lt (shl3_and31_lt lo), Nat.mod_eq_of_lt (green565_lt lo hi),
      Nat.mod_eq_of_lt (and248_lt hi), Nat.zero_mod] at g
    exact g

/-- C1, witness: the single pixel with bytes `(0x00, 0xF8)` decodes to blue 0,
green 0, red 248, alpha 0. -/
theorem convert565to32_decodes_witness :
    ∃ m, convert565to32 1 1 [0x00, 0xF8] ⟨[7, 7, 7, 7], []⟩ = .ok m ∧
      m.out[0]? = some 0 ∧ m.out[1]? = some 0 ∧ m.out[2]? = some 248 ∧ m.out[3]? = some 0 := by
  obtain ⟨m, hm, _, hpix⟩ :=
    convert565to32_decodes 1 1 [0x00, 0xF8] ⟨[7, 7, 7, 7], []⟩ (by decide) (by decide) (by decide)
  exact ⟨m, hm, hpix 0 0x00 0xF8 (by decide) rfl rfl⟩


theorem constBuffer_length (n v : Nat) : (constBuffer n v).length = n :=
  List.length_replicate n v

theorem constBuffer_get (n v i : Nat) (h : i < n) : (constBuffer n v)[i]? = some v := by
  unfold constBuffer
  rw [List.getElem?_replicate, if_pos h]

/-- C1, counterexample: for a 65536 x 32768 image the loop bound
`(unsigned int)height * width * 2` wraps to `0`; no pixel is converted, and the
blue byte of pixel 0 stays `7` although `(255 & 0x1F) << 3` is `248`. -/
theorem convert565to32_wraps :
    (constBuffer 4294967296 255).length = 65536 * 32768 * 2 ∧
    (constBuffer 8589934592 7).length = 65536 * 32768 * 4 ∧
    (constBuffer 4294967296 255)[2 * 0]? = some 255 ∧
    convert565to32 65536 32768 (constBuffer 4294967296 255) ⟨constBuffer 8589934592 7, []⟩
      = .ok ⟨constBuffer 8589934592 7, []⟩ ∧
    (constBuffer 8589934592 7)[4 * 0]? = some 7 ∧
    (255 &&& 0x1F) <<< 3 = 248 := by
  refine ⟨constBuffer_length _ _, constBuffer_length _ _, constBuffer_get _ _ _ (by decide), ?_,
    constBuffer_get _ _ _ (by decide), by decide⟩
  exact forLoop_done _ _ _ _ _ _ (by decide)

/-- C2, as amended: when `width * height * 4` does not exceed `2^32`, `convert1555to32`
succeeds on every input buffer of `width * height` two-byte pixels and writes, for
each pixel `p` with bytes `lo`, `hi`, blue `(hi & 0x7C) << 1`, green
`(((hi & 0x03) << 3) | ((lo & 0xE0) >> 5)) << 3`, red `(lo & 0x1F) << 3` and alpha `0`
at offsets `4p .. 4p+3`; each of these values is below 256, so the store into a
byte does not truncate it. -/
theorem convert1555to32_decodes (width height : Nat) (inbuffer : Buffer) (outbuffer : Mem)
    (hdim : width * height * 4 ≤ 4294967296)
    (hin : inbuffer.length = width * height * 2)
    (hout : outbuffer.out.length = width * height * 4) :
    ∃ m, convert1555to32 width height inbuffer outbuffer = .ok m ∧
      m.out.length = width * height * 4 ∧
      ∀ p lo hi, p < width * height →
        inbuffer[2 * p]? = some lo → inbuffer[2 * p + 1]? = some hi →
        (m.out[4 * p]? = some ((hi &&& 0x7C) <<< 1) ∧ (hi &&& 0x7C) <<< 1 < 256) ∧
        (m.out[4 * p + 1]? = some ((((hi &&& 0x03) <<< 3) ||| ((lo &&& 0xE0) >>> 5)) <<< 3) ∧
          (((hi &&& 0x03) <<< 3) ||| ((lo &&& 0xE0) >>> 5)) <<< 3 < 256) ∧
        (m.out[4 * p + 2]? = some ((lo &&& 0x1F) <<< 3) ∧ (lo &&& 0x1F) <<< 3 < 256) ∧
        m.out[4 * p + 3]? = some 0 := by
  refine ⟨_, convert1555to32_eq_paint width height inbuffer outbuffer hdim hin hout, ?_, ?_⟩
  · simp [hout]
  · intro p lo hi hp hlo hhi
    have g := paint_pixel (spec1555 inbuffer) (width * height) outbuffer p hp (by omega)
    simp only [spec1555, List.getD_eq_getElem?_getD, hlo, hhi, Option.getD_some,
      Nat.mod_eq_of_lt (shl3_and31_lt lo), Nat.mod_eq_of_lt (green1555_lt lo hi),
      Nat.mod_eq_of_lt (shl1_and124_lt hi), Nat.zero_mod] at g
    exact ⟨⟨g.1, shl1_and124_lt hi⟩, ⟨g.2.1, green1555_lt lo hi⟩, ⟨g.2.2.1, shl3_and31_lt lo⟩,
      g.2.2.2⟩

/-- C2, witness: the single pixel with bytes `(0x1F, 0x00)` decodes to blue 0,
green 0, red 248, alpha 0. -/
theorem convert1555to32_decodes_witness :
    ∃ m, convert1555to32 1 1 [0x1F, 0x00] ⟨[7, 7, 7, 7], []⟩ = .ok m ∧
      m.out[0]? = some 0 ∧ m.out[1]? = some 0 ∧ m.out[2]? = some 248 ∧ m.out[3]? = some 0 := by
  obtain ⟨m, hm, _, hpix⟩ :=
    convert1555to32_decodes 1 1 [0x1F, 0x00] ⟨[7, 7, 7, 7], []⟩ (by decide) (by decide)
      (by decide)
  have h := hpix 0 0x1F 0x00 (by decide) rfl rfl
  exact ⟨m, hm, h.1.1, h.2.1.1, h.2.2.1.1, h.2.2.2⟩

/-- C2, counterexample: for a 32768 x 65536 image the loop bound
`(unsigned int)height * width * 2` wraps to `0`; no pixel is converted, and the
red byte of pixel 0 stays `7` although `(255 & 0x1F) << 3` is `248`. -/
theorem convert1555to32_wraps :
    (constBuffer 4294967296 255).length = 32768 * 65536 * 2 ∧
    (constBuffer 8589934592 7).length = 32768 * 65536 * 4 ∧
    (constBuffer 4294967296 255)[2 * 0]? = some 255 ∧
    convert1555to32 32768 65536 (constBuffer 4294967296 255) ⟨constBuffer 8589934592 7, []⟩
      = .ok ⟨constBuffer 8589934592 7, []⟩ ∧
    (constBuffer 8589934592 7)[4 * 0 + 2]? = some 7 ∧
    (255 &&& 0x1F) <<< 3 = 248 := by
  refine ⟨constBuffer_length _ _, constBuffer_length _ _, constBuffer_get _ _ _ (by decide), ?_,
    constBuffer_get _ _ _ (by decide), by decide⟩
  exact forLoop_done _ _ _ _ _ _ (by decide)

theorem getD_mod_byte (inbuffer : Buffer) (hbytes : ∀ b ∈ inbuffer, b < 256) (idx : Nat)
    (h : idx < inbuffer.length) : some (inbuffer.getD idx 0 % 256) = inbuffer[idx]? := by
  rw [List.getD_eq_getElem?_getD, List.getElem?_eq_getElem h]
  simp only [Option.getD_some]
  rw [Nat.mod_eq_of_lt (hbytes _ (List.getElem_mem h))]

theorem paint888_pixel (src : SrcOffsets) (N : Nat) (inbuffer : Buffer) (m : Mem)
    (hbytes : ∀ b ∈ inbuffer, b < 256) (hin : inbuffer.length = N * 3)
    (hlen : 4 * N ≤ m.out.length) (hb : offsetOk 3 src.srcBlue) (hg : offsetOk 3 src.srcGreen)
    (hr : offsetOk 3 src.srcRed) (p : Nat) (hp : p < N) :
    (paint (spec888 src inbuffer) 0 N m).out[4 * p]? = inbuffer[3 * p + src.srcBlue.toNat]? ∧
    (paint (spec888 src inbuffer) 0 N m).out[4 * p + 1]?
      = inbuffer[3 * p + src.srcGreen.toNat]? ∧
    (paint (spec888 src inbuffer) 0 N m).out[4 * p + 2]? = inbuffer[3 * p + src.srcRed.toNat]? ∧
    (paint (spec888 src inbuffer) 0 N m).out[4 * p + 3]? = some 0 := by
  have lb := offset_toNat_lt 3 _ hb
  have lg := offset_toNat_lt 3 _ hg
  have lr := offset_toNat_lt 3 _ hr
  have g := paint_pixel (spec888 src inbuffer) N m p hp hlen
  simp only [spec888, Nat.zero_mod] at g
  rw [getD_mod_byte inbuffer hbytes _ (by omega), getD_mod_byte inbuffer hbytes _ (by omega),
    getD_mod_byte inbuffer hbytes _ (by omega)] at g
  exact g

theorem paint8888_pixel (src : SrcOffsets) (N : Nat) (inbuffer : Buffer) (m : Mem)
    (hbytes : ∀ b ∈ inbuffer, b < 256) (hin : inbuffer.length = N * 4)
    (hlen : 4 * N ≤ m.out.length) (hb : offsetOk 4 src.srcBlue) (hg : offsetOk 4 src.srcGreen)
    (hr : offsetOk 4 src.srcRed) (ha : 0 ≤ src.srcAlpha → offsetOk 4 src.srcAlpha)
    (p : Nat) (hp : p < N) :
    (paint (spec8888 src inbuffer) 0 N m).out[4 * p]? = inbuffer[4 * p + src.srcBlue.toNat]? ∧
    (paint (spec8888 src inbuffer) 0 N m).out[4 * p + 1]?
      = inbuffer[4 * p + src.srcGreen.toNat]? ∧
    (paint (spec8888 src inbuffer) 0 N m).out[4 * p + 2]?
      = inbuffer[4 * p + src.srcRed.toNat]? ∧
    (0 ≤ src.srcAlpha → (paint (spec8888 src inbuffer) 0 N m).out[4 * p + 3]?
      = inbuffer[4 * p + src.srcAlpha.toNat]?) ∧
    (src.srcAlpha < 0 → (paint (spec8888 src inbuffer) 0 N m).out[4 * p + 3]? = some 0) := by
  have lb := offset_toNat_lt 4 _ hb
  have lg := offset_toNat_lt 4 _ hg
  have lr := offset_toNat_lt 4 _ hr
  have g := paint_pixel (spec8888 src inbuffer) N m p hp hlen
  simp only [spec8888] at g
  rw [getD_mod_byte inbuffer hbytes _ (by omega), getD_mod_byte inbuffer hbytes _ (by omega),
    getD_mod_byte inbuffer hbytes _ (by omega)] at g
  refine ⟨g.1, g.2.1, g.2.2.1, ?_, ?_⟩
  · intro hα
    have la := offset_toNat_lt 4 _ (ha hα)
    have g3 := g.2.2.2
    rw [if_pos hα, getD_mod_byte inbuffer hbytes _ (by omega)] at g3
    exact g3
  · intro hα
    have g3 := g.2.2.2
    rw [if_neg (by omega)] at g3
    exact g3

/-- C3, as amended: when `width * height * 4` does not exceed `2^32`, the input holds
bytes and the channel offsets lie inside a pixel, `convert888to32` (three bytes per
pixel) and `convert8888to32` (four bytes per pixel) copy, for every pixel `p`, the
input bytes at `k*p + srcBlue`, `k*p + srcGreen`, `k*p + srcRed` to output offsets
`4p`, `4p+1`, `4p+2`; the alpha byte at `4p+3` is `0` for 24-bit, the input byte at
`4p + srcAlpha` for 32-bit with an alpha offset, and `0` for 32-bit without one
(`srcAlpha` negative). -/
theorem convert888_8888_copies :
    (∀ (src : SrcOffsets) (width height : Nat) (inbuffer : Buffer) (outbuffer : Mem),
      width * height * 4 ≤ 4294967296 → (∀ b ∈ inbuffer, b < 256) →
      inbuffer.length = width * height * 3 → outbuffer.out.length = width * height * 4 →
      offsetOk 3 src.srcBlue → offsetOk 3 src.srcGreen → offsetOk 3 src.srcRed →
      ∃ m, convert888to32 src width height inbuffer outbuffer = .ok m ∧
        m.out.length = width * height * 4 ∧
        ∀ p, p < width * height →
          m.out[4 * p]? = inbuffer[3 * p + src.srcBlue.toNat]? ∧
          m.out[4 * p + 1]? = inbuffer[3 * p + src.srcGreen.toNat]? ∧
          m.out[4 * p + 2]? = inbuffer[3 * p + src.srcRed.toNat]? ∧
          m.out[4 * p + 3]? = some 0) ∧
    (∀ (src : SrcOffsets) (width height : Nat) (inbuffer : Buffer) (outbuffer : Mem),
      width * height * 4 ≤ 4294967296 → (∀ b ∈ inbuffer, b < 256) →
      inbuffer.length = width * height * 4 → outbuffer.out.length = width * height * 4 →
      offsetOk 4 src.srcBlue → offsetOk 4 src.srcGreen → offsetOk 4 src.srcRed →
      (0 ≤ src.srcAlpha → offsetOk 4 src.srcAlpha) →
      ∃ m, convert8888to32 src width height inbuffer outbuffer = .ok m ∧
        m.out.length = width * height * 4 ∧
        ∀ p, p < width * height →
          m.out[4 * p]? = inbuffer[4 * p + src.srcBlue.toNat]? ∧
          m.out[4 * p + 1]? = inbuffer[4 * p + src.srcGreen.toNat]? ∧
          m.out[4 * p + 2]? = inbuffer[4 * p + src.srcRed.toNat]? ∧
          (0 ≤ src.srcAlpha → m.out[4 * p + 3]? = inbuffer[4 * p + src.srcAlpha.toNat]?) ∧
          (src.srcAlpha < 0 → m.out[4 * p + 3]? = some 0)) := by
  constructor
  · intro src width height inbuffer outbuffer hdim hbytes hin hout hb hg hr
    refine ⟨_, convert888to32_eq_paint src width height inbuffer outbuffer hdim hin hout hb hg hr,
      by simp [hout], ?_⟩
    intro p hp
    exact paint888_pixel src (width * height) inbuffer outbuffer hbytes hin (by omega) hb hg hr
      p hp
  · intro src width height inbuffer outbuffer hdim hbytes hin hout hb hg hr ha
    refine ⟨_, convert8888to32_eq_paint src width height inbuffer outbuffer hdim hin hout hb hg hr
      ha, by simp [hout], ?_⟩
    intro p hp
    exact paint8888_pixel src (width * height) inbuffer outbuffer hbytes hin (by omega) hb hg hr
      ha p hp

/-- C3, witness: one pixel with the red channel first (offsets blue 2, green 1,
red 0), once with three bytes per pixel, once with four and alpha at offset 3, and
once with four and no alpha channel. -/
theorem convert888_8888_copies_witness :
    (∃ m, convert888to32 ⟨2, 1, 0, -1⟩ 1 1 [10, 20, 30] ⟨[7, 7, 7, 7], []⟩ = .ok m ∧
      m.out[0]? = some 30 ∧ m.out[1]? = some 20 ∧ m.out[2]? = some 10 ∧ m.out[3]? = some 0) ∧
    (∃ m, convert8888to32 ⟨2, 1, 0, 3⟩ 1 1 [10, 20, 30, 99] ⟨[7, 7, 7, 7], []⟩ = .ok m ∧
      m.out[0]? = some 30 ∧ m.out[1]? = some 20 ∧ m.out[2]? = some 10 ∧ m.out[3]? = some 99) ∧
    (∃ m, convert8888to32 ⟨2, 1, 0, -1⟩ 1 1 [10, 20, 30, 99] ⟨[7, 7, 7, 7], []⟩ = .ok m ∧
      m.out[0]? = some 30 ∧ m.out[1]? = some 20 ∧ m.out[2]? = some 10 ∧ m.out[3]? = some 0) := by
  refine ⟨?_, ?_, ?_⟩
  · obtain ⟨m, hm, _, hpix⟩ := convert888_8888_copies.1 ⟨2, 1, 0, -1⟩ 1 1 [10, 20, 30]
      ⟨[7, 7, 7, 7], []⟩ (by decide) (by decide) (by decide) (by decide) (by decide) (by decide)
      (by decide)
    exact ⟨m, hm, hpix 0 (by decide)⟩
  · obtain ⟨m, hm, _, hpix⟩ := convert888_8888_copies.2 ⟨2, 1, 0, 3⟩ 1 1 [10, 20, 30, 99]
      ⟨[7, 7, 7, 7], []⟩ (by decide) (by decide) (by decide) (by decide) (by decide) (by decide)
      (by decide) (by decide)
    have h := hpix 0 (by decide)
    exact ⟨m, hm, h.1, h.2.1, h.2.2.1, h.2.2.2.1 (by decide)⟩
  · obtain ⟨m, hm, _, hpix⟩ := convert888_8888_copies.2 ⟨2, 1, 0, -1⟩ 1 1 [10, 20, 30, 99]
      ⟨[7, 7, 7, 7], []⟩ (by decide) (by decide) (by decide) (by decide) (by decide) (by decide)
      (by decide) (by decide)
    have h := hpix 0 (by decide)
    exact ⟨m, hm, h.1, h.2.1, h.2.2.1, h.2.2.2.2 (by decide)⟩

/-- C3, counterexample: for a 65536 x 65536 image the loop bound
`(unsigned int)height * width` of `convert888to32` wraps to `0`; no pixel is
converted, and the blue byte of pixel 0 stays `7` although the input byte at the
blue offset is `255`. -/
theorem convert888to32_wraps :
    (constBuffer 12884901888 255).length = 65536 * 65536 * 3 ∧
    (constBuffer 17179869184 7).length = 65536 * 65536 * 4 ∧
    offsetOk 3 initialOffsets.srcBlue ∧ offsetOk 3 initialOffsets.srcGreen ∧
    offsetOk 3 initialOffsets.srcRed ∧
    convert888to32 initialOffsets 65536 65536 (constBuffer 12884901888 255)
      ⟨constBuffer 17179869184 7, []⟩ = .ok ⟨constBuffer 17179869184 7, []⟩ ∧
    (constBuffer 17179869184 7)[4 * 0]? = some 7 ∧
    (constBuffer 12884901888 255)[3 * 0 + initialOffsets.srcBlue.toNat]? = some 255 := by
  refine ⟨constBuffer_length _ _, constBuffer_length _ _, by decide, by decide, by decide, ?_,
    constBuffer_get _ _ _ (by decide), constBuffer_get _ _ _ (by decide)⟩
  exact forLoop_done _ _ _ _ _ _ (by decide)

/-- C10, as amended: with the initial channel offsets (blue 0, green 1, red 2,
alpha 3) and `width * height * 4` not above `2^32`, `convert8888to32` returns the input
buffer byte for byte; in particular the fourth byte of every source pixel is passed
through as alpha. -/
theorem convert8888to32_initial_identity (width height : Nat) (inbuffer : Buffer)
    (outbuffer : Mem) (hdim : width * height * 4 ≤ 4294967296)
    (hbytes : ∀ b ∈ inbuffer, b < 256) (hin : inbuffer.length = width * height * 4)
    (hout : outbuffer.out.length = width * height * 4) :
    ∃ m, convert8888to32 initialOffsets width height inbuffer outbuffer = .ok m ∧
      m.out = inbuffer := by
  refine ⟨_, convert8888to32_eq_paint initialOffsets width height inbuffer outbuffer hdim hin hout
    (by decide) (by decide) (by decide) (fun _ => by decide), ?_⟩
  apply List.ext_getElem?
  intro n
  by_cases hn : n < width * height * 4
  · have g := paint8888_pixel initialOffsets (width * height) inbuffer outbuffer hbytes hin
      (by omega) (by decide) (by decide) (by decide) (fun _ => by decide) (n / 4) (by omega)
    have e0 : initialOffsets.srcBlue.toNat = 0 := rfl
    have e1 : initialOffsets.srcGreen.toNat = 1 := rfl
    have e2 : initialOffsets.srcRed.toNat = 2 := rfl
    have e3 : initialOffsets.srcAlpha.toNat = 3 := rfl
    rw [e0, e1, e2, e3] at g
    have g3 := g.2.2.2.1 (by decide)
    have hc : n % 4 = 0 ∨ n % 4 = 1 ∨ n % 4 = 2 ∨ n % 4 = 3 := by omega
    rcases hc with h | h | h | h
    · have e : n = 4 * (n / 4) + 0 := by omega
      rw [e]
      exact g.1
    · have e : n = 4 * (n / 4) + 1 := by omega
      rw [e]
      exact g.2.1
    · have e : n = 4 * (n / 4) + 2 := by omega
      rw [e]
      exact g.2.2.1
    · have e : n = 4 * (n / 4) + 3 := by omega
      rw [e]
      exact g3
  · rw [List.getElem?_eq_none (by simp; omega), List.getElem?_eq_none (by omega)]

/-- C10, witness: two pixels are returned unchanged, alpha bytes `44` and `88`
included. -/
theorem convert8888to32_initial_identity_witness :
    ∃ m, convert8888to32 initialOffsets 2 1 [11, 22, 33, 44, 55, 66, 77, 88]
        ⟨[0, 0, 0, 0, 0, 0, 0, 0], []⟩ = .ok m ∧
      m.out = [11, 22, 33, 44, 55, 66, 77, 88] :=
  convert8888to32_initial_identity 2 1 [11, 22, 33, 44, 55, 66, 77, 88]
    ⟨[0, 0, 0, 0, 0, 0, 0, 0], []⟩ (by decide) (by decide) (by decide) (by decide)

/-- C10, counterexample: for a 131072 x 32768 image the loop bound
`(unsigned int)height * width` wraps to `0`; the zeroed output buffer is returned
untouched although the input consists of bytes `255`. -/
theorem convert8888to32_initial_wraps :
    (constBuffer 17179869184 255).length = 131072 * 32768 * 4 ∧
    (constBuffer 17179869184 0).length = 131072 * 32768 * 4 ∧
    convert8888to32 initialOffsets 131072 32768 (constBuffer 17179869184 255)
      ⟨constBuffer 17179869184 0, []⟩ = .ok ⟨constBuffer 17179869184 0, []⟩ ∧
    (constBuffer 17179869184 0)[0]? = some 0 ∧
    (constBuffer 17179869184 255)[0]? = some 255 ∧
    constBuffer 17179869184 0 ≠ constBuffer 17179869184 255 := by
  refine ⟨constBuffer_length _ _, constBuffer_length _ _, ?_, constBuffer_get _ _ _ (by decide),
    constBuffer_get _ _ _ (by decide), ?_⟩
  · exact forLoop_done _ _ _ _ _ _ (by decide)
  · intro h
    have h0 : (constBuffer 17179869184 0)[0]? = some 0 := constBuffer_get _ _ _ (by decide)
    have h1 : (constBuffer 17179869184 255)[0]? = some 255 := constBuffer_get _ _ _ (by decide)
    rw [h, h1] at h0
    exact absurd h0 (by decide)

theorem forLoop_congr (bound step : Nat) (body1 body2 : Nat → Mem → Except Fault Mem)
    (h : ∀ i m, i < bound → body1 i m = body2 i m) :
    ∀ (fuel i : Nat) (m : Mem),
      forLoop fuel bound step body1 i m = forLoop fuel bound step body2 i m := by
  intro fuel
  induction fuel with
  | zero =>
    intro i m
    unfold forLoop
    rfl
  | succ fuel ih =>
    intro i m
    unfold forLoop
    by_cases hi : i < bound
    · simp only [hi, if_true, h i m hi]
      cases body2 i m with
      | error e => rfl
      | ok m1 => exact ih _ m1
    · simp only [hi, if_false]

theorem permutePixels_length (k : Nat) (hk : 0 < k) (s : Equiv.Perm (Fin k))
    (inbuffer : Buffer) : (permutePixels k hk s inbuffer).length = inbuffer.length := by
  simp [permutePixels]

theorem load_permutePixels (k : Nat) (hk : 0 < k) (s : Equiv.Perm (Fin k)) (inbuffer : Buffer)
    (q : Nat) (j : Fin k) (hq : k * q + k ≤ inbuffer.length) :
    load (permutePixels k hk s inbuffer) (k * q + (s j).val) = load inbuffer (k * q + j.val) := by
  have hj := j.isLt
  have hsj := (s j).isLt
  have hlen := permutePixels_length k hk s inbuffer
  rw [load_ok _ _ (by omega), load_ok _ _ (by omega)]
  congr 1
  have hdiv : (k * q + (s j).val) / k = q := by
    rw [Nat.mul_comm, Nat.add_comm, Nat.add_mul_div_right _ _ hk, Nat.div_eq_of_lt hsj,
      Nat.zero_add]
  have hmod : (k * q + (s j).val) % k = (s j).val := by
    rw [Nat.mul_add_mod, Nat.mod_eq_of_lt hsj]
  have hfin : (⟨(k * q + (s j).val) % k, Nat.mod_lt _ hk⟩ : Fin k) = s j := Fin.ext hmod
  rw [List.getD_eq_getElem?_getD]
  simp only [permutePixels]
  rw [List.getElem?_map, List.getElem?_range (by omega)]
  simp only [Option.map_some', Option.getD_some, hdiv, hfin, Equiv.symm_apply_apply]

theorem toU32_permuteOffset (k : Nat) (hk4 : k ≤ 4) (s : Equiv.Perm (Fin k)) (x : Int)
    (hx : offsetOk k x) :
    ∃ j : Fin k, j.val = x.toNat ∧ toU32 x = j.val ∧ toU32 (permuteOffset k s x) = (s j).val := by
  have hlt := offset_toNat_lt k x hx
  refine ⟨⟨x.toNat, hlt⟩, rfl, ?_, ?_⟩
  · unfold offsetOk at hx
    unfold toU32
    simp only
    omega
  · have hc : 0 ≤ x ∧ x.toNat < k := ⟨hx.1, hlt⟩
    unfold permuteOffset
    rw [dif_pos hc]
    have := (s ⟨x.toNat, hlt⟩).isLt
    rw [toU32_natCast]
    omega

theorem permuteOffset_neg (k : Nat) (s : Equiv.Perm (Fin k)) (x : Int) (hx : ¬ 0 ≤ x) :
    permuteOffset k s x = x := by
  unfold permuteOffset
  rw [dif_neg (fun h => hx h.1)]

theorem permuteOffset_nonneg (k : Nat) (s : Equiv.Perm (Fin k)) (x : Int) (hx : 0 ≤ x) :
    0 ≤ permuteOffset k s x := by
  unfold permuteOffset
  split
  · exact Int.ofNat_nonneg _
  · exact hx

/-- Reading channel `x` of the pixel at byte offset `base` gives the same result
before and after the permutation. -/
theorem load_channel_permuted (k : Nat) (hk : 0 < k) (hk4 : k ≤ 4) (s : Equiv.Perm (Fin k))
    (inbuffer : Buffer) (x : Int) (hx : offsetOk k x) (q : Nat)
    (hq : k * q + k ≤ inbuffer.length) (hw : k * q + k ≤ 4294967296) :
    load (permutePixels k hk s inbuffer)
        ((k * q + toU32 (permuteOffset k s x)) % 4294967296)
      = load inbuffer ((k * q + toU32 x) % 4294967296) := by
  obtain ⟨j, _, h1, h2⟩ := toU32_permuteOffset k hk4 s x hx
  have hj := j.isLt
  have hsj := (s j).isLt
  rw [h1, h2, Nat.mod_eq_of_lt (by omega), Nat.mod_eq_of_lt (by omega)]
  exact load_permutePixels k hk s inbuffer q j hq

theorem convert888to32_body_permuted (s : Equiv.Perm (Fin 3)) (src : SrcOffsets)
    (inbuffer : Buffer) (i : Nat) (m : Mem) (hb : offsetOk 3 src.srcBlue)
    (hg : offsetOk 3 src.srcGreen) (hr : offsetOk 3 src.srcRed)
    (hi : 3 * i + 3 ≤ inbuffer.length) (hw : 3 * i + 3 ≤ 4294967296) :
    convert888to32_body (permuteOffsets 3 s src) (permutePixels 3 (by decide) s inbuffer) i m
      = convert888to32_body src inbuffer i m := by
  have e : i * 3 % 4294967296 = 3 * i := by omega
  unfold convert888to32_body
  simp only [permuteOffsets, e]
  rw [load_channel_permuted 3 (by decide) (by decide) s inbuffer _ hb i hi hw,
    load_channel_permuted 3 (by decide) (by decide) s inbuffer _ hg i hi hw,
    load_channel_permuted 3 (by decide) (by decide) s inbuffer _ hr i hi hw]

theorem convert8888to32_body_permuted (s : Equiv.Perm (Fin 4)) (src : SrcOffsets)
    (inbuffer : Buffer) (i : Nat) (m : Mem) (hb : offsetOk 4 src.srcBlue)
    (hg : offsetOk 4 src.srcGreen) (hr : offsetOk 4 src.srcRed)
    (ha : 0 ≤ src.srcAlpha → offsetOk 4 src.srcAlpha)
    (hi : 4 * (i % 1073741824) + 4 ≤ inbuffer.length) :
    convert8888to32_body (permuteOffsets 4 s src) (permutePixels 4 (by decide) s inbuffer) i m
      = convert8888to32_body src inbuffer i m := by
  have e : i * 4 % 4294967296 = 4 * (i % 1073741824) := by omega
  have hw : 4 * (i % 1073741824) + 4 ≤ 4294967296 := by omega
  unfold convert8888to32_body
  simp only [permuteOffsets, e]
  rw [load_channel_permuted 4 (by decide) (by decide) s inbuffer _ hb _ hi hw,
    load_channel_permuted 4 (by decide) (by decide) s inbuffer _ hg _ hi hw,
    load_channel_permuted 4 (by decide) (by decide) s inbuffer _ hr _ hi hw]
  by_cases hα : 0 ≤ src.srcAlpha
  · simp only [hα, permuteOffset_nonneg 4 s _ hα, if_true]
    rw [load_channel_permuted 4 (by decide) (by decide) s inbuffer _ (ha hα) _ hi hw]
  · have hα2 : ¬ 0 ≤ permuteOffset 4 s src.srcAlpha := by
      rw [permuteOffset_neg 4 s _ hα]
      exact hα
    simp only [hα, hα2, if_false]

/-- C4, as amended: permuting the bytes inside every pixel by `s` and replacing the
channel offsets by their images under `s` does not change the result of the
conversion.  For `convert8888to32` this holds for every width and height; for
`convert888to32` it holds whenever three times the loop bound
`(width * height) mod 2^32` stays below `2^32`. -/
theorem convert_permutation_invariant :
    (∀ (s : Equiv.Perm (Fin 3)) (src : SrcOffsets) (width height : Nat) (inbuffer : Buffer)
        (outbuffer : Mem),
      width * height % 4294967296 * 3 < 4294967296 →
      inbuffer.length = width * height * 3 →
      offsetOk 3 src.srcBlue → offsetOk 3 src.srcGreen →
      offsetOk 3 src.srcRed →
      convert888to32 (permuteOffsets 3 s src) width height
          (permutePixels 3 (by decide) s inbuffer) outbuffer
        = convert888to32 src width height inbuffer outbuffer) ∧
    (∀ (s : Equiv.Perm (Fin 4)) (src : SrcOffsets) (width height : Nat) (inbuffer : Buffer)
        (outbuffer : Mem),
      inbuffer.length = width * height * 4 →
      offsetOk 4 src.srcBlue → offsetOk 4 src.srcGreen →
      offsetOk 4 src.srcRed → (0 ≤ src.srcAlpha → offsetOk 4 src.srcAlpha) →
      convert8888to32 (permuteOffsets 4 s src) width height
          (permutePixels 4 (by decide) s inbuffer) outbuffer
        = convert8888to32 src width height inbuffer outbuffer) := by
  constructor
  · intro s src width height inbuffer outbuffer hdim hin hb hg hr
    unfold convert888to32
    rw [loopBound_nat]
    apply forLoop_congr
    intro i m hi
    have hle : width * height % 4294967296 ≤ width * height := Nat.mod_le _ _
    exact convert888to32_body_permuted s src inbuffer i m hb hg hr (by omega) (by omega)
  · intro s src width height inbuffer outbuffer hin hb hg hr ha
    unfold convert8888to32
    rw [loopBound_nat]
    apply forLoop_congr
    intro i m hi
    have hle : width * height % 4294967296 ≤ width * height := Nat.mod_le _ _
    exact convert8888to32_body_permuted s src inbuffer i m hb hg hr ha (by omega)

/-- C4, witness: two pixels, bytes reversed inside each pixel and offsets mapped
accordingly, for both formats. -/
theorem convert_permutation_invariant_witness :
    convert888to32 (permuteOffsets 3 (Equiv.swap 0 2) initialOffsets) 2 1
        (permutePixels 3 (by decide) (Equiv.swap 0 2) [1, 2, 3, 4, 5, 6])
        ⟨[0, 0, 0, 0, 0, 0, 0, 0], []⟩
      = convert888to32 initialOffsets 2 1 [1, 2, 3, 4, 5, 6] ⟨[0, 0, 0, 0, 0, 0, 0, 0], []⟩ ∧
    convert8888to32 (permuteOffsets 4 (Equiv.swap 0 3) initialOffsets) 2 1
        (permutePixels 4 (by decide) (Equiv.swap 0 3) [1, 2, 3, 4, 5, 6, 7, 8])
        ⟨[0, 0, 0, 0, 0, 0, 0, 0], []⟩
      = convert8888to32 initialOffsets 2 1 [1, 2, 3, 4, 5, 6, 7, 8]
        ⟨[0, 0, 0, 0, 0, 0, 0, 0], []⟩ :=
  ⟨convert_permutation_invariant.1 (Equiv.swap 0 2) initialOffsets 2 1 [1, 2, 3, 4, 5, 6]
      ⟨[0, 0, 0, 0, 0, 0, 0, 0], []⟩ (by decide) (by decide) (by decide) (by decide) (by decide),
    convert_permutation_invariant.2 (Equiv.swap 0 3) initialOffsets 2 1 [1, 2, 3, 4, 5, 6, 7, 8]
      ⟨[0, 0, 0, 0, 0, 0, 0, 0], []⟩ (by decide) (by decide) (by decide) (by decide)
      (fun _ => by decide)⟩

theorem iter_succ_last (body : Nat → Mem → Except Fault Mem) (step : Nat) :
    ∀ (k p : Nat) (m : Mem),
      iter body step p (k + 1) m =
        match iter body step p k m with
        | .ok m1 => body ((p + k) * step) m1
        | .error e => .error e := by
  intro k
  induction k with
  | zero =>
    intro p m
    simp only [iter, Nat.add_zero]
    cases body (p * step) m <;> rfl
  | succ k ih =>
    intro p m
    rw [iter]
    cases hb : body (p * step) m with
    | error e => simp only [iter, hb]
    | ok m1 =>
      simp only
      rw [ih (p + 1) m1]
      have e : p + 1 + k = p + (k + 1) := by omega
      rw [e]
      conv => rhs; rw [iter]
      simp only [hb]

theorem convert888to32_body_big (src : SrcOffsets) (inbuffer : Buffer) (i : Nat) (m : Mem)
    (hin : 4294967296 ≤ inbuffer.length) (hout : 4294967296 ≤ m.out.length) :
    ∃ m1, convert888to32_body src inbuffer i m = .ok m1 ∧ m1.out.length = m.out.length ∧
      m1.out[(i * 4) % 4294967296]?
        = some (inbuffer.getD ((i * 3 % 4294967296 + toU32 src.srcBlue) % 4294967296) 0
            % 256) := by
  have hs : i <<< 2 = i * 4 := by rw [Nat.shiftLeft_eq]
  have e0 : (i * 4 % 4294967296 + 0) % 4294967296 = i * 4 % 4294967296 := by omega
  have e1 : (i * 4 % 4294967296 + 1) % 4294967296 = i * 4 % 4294967296 + 1 := by omega
  have e2 : (i * 4 % 4294967296 + 2) % 4294967296 = i * 4 % 4294967296 + 2 := by omega
  have e3 : (i * 4 % 4294967296 + 3) % 4294967296 = i * 4 % 4294967296 + 3 := by omega
  have hlt : i * 4 % 4294967296 + 3 < 4294967296 := by omega
  unfold convert888to32_body
  simp only [toU32_Blue, toU32_Green, toU32_Red, toU32_Alpha, hs, e0, e1, e2, e3]
  rw [load_ok _ _ (Nat.lt_of_lt_of_le (Nat.mod_lt _ (by decide)) hin),
    load_ok _ _ (Nat.lt_of_lt_of_le (Nat.mod_lt _ (by decide)) hin),
    load_ok _ _ (Nat.lt_of_lt_of_le (Nat.mod_lt _ (by decide)) hin)]
  simp only [ok_bind, bind_assoc]
  rw [store_ok _ _ _ (by omega)]
  simp only [ok_bind]
  rw [store_ok _ _ _ (by simp; omega)]
  simp only [ok_bind]
  rw [store_ok _ _ _ (by simp; omega)]
  simp only [ok_bind]
  rw [store_ok _ _ _ (by simp; omega)]
  refine ⟨_, rfl, by simp, ?_⟩
  simp only [List.getElem?_set]
  have n1 : ¬ (i * 4 % 4294967296 + 1 = i * 4 % 4294967296) := by omega
  have n2 : ¬ (i * 4 % 4294967296 + 2 = i * 4 % 4294967296) := by omega
  have n3 : ¬ (i * 4 % 4294967296 + 3 = i * 4 % 4294967296) := by omega
  have hl : i * 4 % 4294967296 < m.out.length := by omega
  simp [n1, n2, n3, hl]

theorem iter888_big (src : SrcOffsets) (inbuffer : Buffer)
    (hin : 4294967296 ≤ inbuffer.length) :
    ∀ (k p : Nat) (m : Mem), 4294967296 ≤ m.out.length →
      ∃ m1, iter (convert888to32_body src inbuffer) 1 p k m = .ok m1 ∧
        m1.out.length = m.out.length := by
  intro k
  induction k with
  | zero => intro p m _; exact ⟨m, rfl, rfl⟩
  | succ k ih =>
    intro p m hout
    obtain ⟨m1, h1, hl1, _⟩ := convert888to32_body_big src inbuffer (p * 1) m hin hout
    obtain ⟨m2, h2, hl2⟩ := ih (p + 1) m1 (by omega)
    refine ⟨m2, ?_, by omega⟩
    rw [iter, h1]
    exact h2

/-- In buffers of at least `2^32` bytes `convert888to32` never leaves its buffers,
and the blue byte written by the last iteration is still in place at the end. -/
theorem convert888to32_last_blue (src : SrcOffsets) (width height n : Nat) (inbuffer : Buffer)
    (outbuffer : Mem) (hn : width * height = n + 1) (hlt : n + 1 < 4294967296)
    (hin : 4294967296 ≤ inbuffer.length) (hout : 4294967296 ≤ outbuffer.out.length) :
    ∃ m, convert888to32 src width height inbuffer outbuffer = .ok m ∧
      m.out[(n * 4) % 4294967296]?
        = some (inbuffer.getD ((n * 3 % 4294967296 + toU32 src.srcBlue) % 4294967296) 0
            % 256) := by
  unfold convert888to32
  have hbd : toU32 (height : Int) * toU32 (width : Int) % 4294967296 = (n + 1) * 1 := by
    rw [loopBound_nat, hn]
    omega
  have h0 : (0 : Nat) = 0 * 1 := rfl
  rw [hbd]
  conv => enter [1, m, 1, 1, 5]; rw [h0]
  rw [forLoop_eq_iter _ 1 (n + 1) (by decide) (by omega) (n + 1) 0 loopFuel outbuffer (by omega)
    (by unfold loopFuel; omega)]
  rw [iter_succ_last]
  obtain ⟨m1, h1, hl1⟩ := iter888_big src inbuffer hin n 0 outbuffer hout
  obtain ⟨m2, h2, _, hblue⟩ := convert888to32_body_big src inbuffer n m1 hin (by omega)
  refine ⟨m2, ?_, hblue⟩
  rw [h1]
  simp only [Nat.zero_add, Nat.mul_one]
  exact h2

theorem patternBuffer_length (n : Nat) (f : Nat → Nat) : (patternBuffer n f).length = n := by
  unfold patternBuffer
  rw [List.length_map, List.length_range]

theorem patternBuffer_getD (n : Nat) (f : Nat → Nat) (i : Nat) (h : i < n) :
    (patternBuffer n f).getD i 0 = f i := by
  unfold patternBuffer
  rw [List.getD_eq_getElem?_getD, List.getElem?_map, List.getElem?_range h]
  rfl

theorem permutePixels_getD (k : Nat) (hk : 0 < k) (s : Equiv.Perm (Fin k)) (inbuffer : Buffer)
    (n : Nat) (h : n < inbuffer.length) :
    (permutePixels k hk s inbuffer).getD n 0
      = inbuffer.getD (k * (n / k) + (s.symm ⟨n % k, Nat.mod_lt n hk⟩).val) 0 := by
  unfold permutePixels
  rw [List.getD_eq_getElem?_getD, List.getElem?_map, List.getElem?_range h]
  rfl

theorem wrapInput888_length : wrapInput888.length = 4294967301 :=
  patternBuffer_length _ _

/-- C4, counterexample: a 3 x 477218589 image in the 24-bit format.  In the last
iteration `i = 1431655766` the product `i * 3` wraps to `2`, so the pixel is read
from bytes 2, 3, 4 of the input, across a pixel boundary.  With offsets blue 0,
green 1, red 2 the blue byte written at output offset 1431655768 is input byte 2,
which is `1`; after reversing the bytes inside every pixel and mapping the offsets
accordingly it is byte 4 of the permuted input, which is `0`. -/
theorem convert888to32_permutation_wraps :
    wrapInput888.length = 3 * 477218589 * 3 ∧
    (constBuffer 5726623068 0).length = 3 * 477218589 * 4 ∧
    ∃ m1 m2,
      convert888to32 ⟨0, 1, 2, -1⟩ 3 477218589 wrapInput888 ⟨constBuffer 5726623068 0, []⟩
        = .ok m1 ∧
      convert888to32 (permuteOffsets 3 (Equiv.swap 0 2) ⟨0, 1, 2, -1⟩) 3 477218589
          (permutePixels 3 (by decide) (Equiv.swap 0 2) wrapInput888)
          ⟨constBuffer 5726623068 0, []⟩
        = .ok m2 ∧
      m1.out[1431655768]? = some 1 ∧ m2.out[1431655768]? = some 0 := by
  refine ⟨wrapInput888_length, constBuffer_length _ _, ?_⟩
  have hX : 4294967296 ≤ wrapInput888.length := by
    rw [wrapInput888_length]
    decide
  have hX2 : 4294967296 ≤ (permutePixels 3 (by decide) (Equiv.swap 0 2) wrapInput888).length := by
    rw [permutePixels_length]
    exact hX
  have hO : 4294967296 ≤ (⟨constBuffer 5726623068 0, []⟩ : Mem).out.length := by
    show 4294967296 ≤ (constBuffer 5726623068 0).length
    rw [constBuffer_length]
    decide
  obtain ⟨m1, h1, b1⟩ := convert888to32_last_blue ⟨0, 1, 2, -1⟩ 3 477218589 1431655766
    wrapInput888 ⟨constBuffer 5726623068 0, []⟩ (by decide) (by decide) hX hO
  obtain ⟨m2, h2, b2⟩ := convert888to32_last_blue
    (permuteOffsets 3 (Equiv.swap 0 2) ⟨0, 1, 2, -1⟩) 3 477218589 1431655766
    (permutePixels 3 (by decide) (Equiv.swap 0 2) wrapInput888)
    ⟨constBuffer 5726623068 0, []⟩ (by decide) (by decide) hX2 hO
  refine ⟨m1, m2, h1, h2, ?_, ?_⟩
  · have e : (1431655766 * 3 % 4294967296 + toU32 (⟨0, 1, 2, -1⟩ : SrcOffsets).srcBlue)
        % 4294967296 = 2 := by decide
    rw [e] at b1
    have v : wrapInput888.getD 2 0 = 1 := patternBuffer_getD _ _ 2 (by decide)
    rw [v] at b1
    exact b1
  · have e : (1431655766 * 3 % 4294967296
        + toU32 (permuteOffsets 3 (Equiv.swap 0 2) ⟨0, 1, 2, -1⟩).srcBlue) % 4294967296 = 4 := by
      decide
    rw [e] at b2
    have v : (permutePixels 3 (by decide) (Equiv.swap 0 2) wrapInput888).getD 4 0 = 0 := by
      rw [permutePixels_getD _ _ _ _ 4 (by rw [wrapInput888_length]; decide)]
      have e4 : 3 * (4 / 3) + ((Equiv.swap (0 : Fin 3) 2).symm ⟨4 % 3, Nat.mod_lt 4 (by decide)⟩).val
          = 4 := by decide
      rw [e4]
      exact patternBuffer_getD _ _ 4 (by decide)
    rw [v] at b2
    exact b2

@[simp] theorem error_bind {α β : Type} (e : Fault) (f : α → Except Fault β) :
    ((Except.error e : Except Fault α) >>= f) = .error e := rfl

theorem load_cases (inbuffer : Buffer) (idx : Nat) :
    (∃ v, load inbuffer idx = .ok v) ∨
    (load inbuffer idx = .error (.readOutOfBounds idx) ∧ inbuffer.length ≤ idx) := by
  by_cases h : idx < inbuffer.length
  · exact Or.inl ⟨_, load_ok inbuffer idx h⟩
  · refine Or.inr ⟨?_, by omega⟩
    unfold load
    rw [List.getElem?_eq_none (by omega)]

theorem load_fault (inbuffer : Buffer) (idx : Nat) (h : inbuffer.length ≤ idx) :
    load inbuffer idx = .error (.readOutOfBounds idx) := by
  unfold load
  rw [List.getElem?_eq_none h]

/-- With the stores in bounds, the body of `convert888to32` is its three loads
followed by the four stores. -/
theorem convert888to32_body_loads (src : SrcOffsets) (inbuffer : Buffer) (i : Nat) (m : Mem)
    (hw : 4 * i + 3 < 4294967296) (hout : 4 * i + 3 < m.out.length) :
    convert888to32_body src inbuffer (i * 1) m =
      (load inbuffer ((i * 1 * 3 % 4294967296 + toU32 src.srcBlue) % 4294967296) >>= fun b =>
        load inbuffer ((i * 1 * 3 % 4294967296 + toU32 src.srcGreen) % 4294967296) >>= fun g =>
        load inbuffer ((i * 1 * 3 % 4294967296 + toU32 src.srcRed) % 4294967296) >>= fun r =>
        Except.ok (writePixel m i ⟨b, g, r, 0⟩)) := by
  unfold convert888to32_body
  simp only [toU32_Blue, toU32_Green, toU32_Red, toU32_Alpha,
    outIndex_unit i _ (by omega) (by decide : 0 < 4), outIndex_unit i _ (by omega) (by decide : 1 < 4),
    outIndex_unit i _ (by omega) (by decide : 2 < 4), outIndex_unit i _ (by omega) (by decide : 3 < 4)]
  cases load inbuffer ((i * 1 * 3 % 4294967296 + toU32 src.srcBlue) % 4294967296) with
  | error e => rfl
  | ok b =>
    simp only [ok_bind]
    rw [store_ok _ _ _ (by omega)]
    simp only [ok_bind]
    cases load inbuffer ((i * 1 * 3 % 4294967296 + toU32 src.srcGreen) % 4294967296) with
    | error e => rfl
    | ok g =>
      simp only [ok_bind]
      rw [store_ok _ _ _ (by simp; omega)]
      simp only [ok_bind]
      cases load inbuffer ((i * 1 * 3 % 4294967296 + toU32 src.srcRed) % 4294967296) with
      | error e => rfl
      | ok r =>
        simp only [ok_bind]
        rw [store_ok _ _ _ (by simp; omega)]
        simp only [ok_bind]
        rw [store_ok _ _ _ (by simp; omega)]
        simp [writePixel]

theorem convert8888to32_body_loads (src : SrcOffsets) (inbuffer : Buffer) (i : Nat) (m : Mem)
    (hw : 4 * i + 3 < 4294967296) (hout : 4 * i + 3 < m.out.length) :
    convert8888to32_body src inbuffer (i * 1) m =
      (load inbuffer ((i * 1 * 4 % 4294967296 + toU32 src.srcBlue) % 4294967296) >>= fun b =>
        load inbuffer ((i * 1 * 4 % 4294967296 + toU32 src.srcGreen) % 4294967296) >>= fun g =>
        load inbuffer ((i * 1 * 4 % 4294967296 + toU32 src.srcRed) % 4294967296) >>= fun r =>
        if 0 ≤ src.srcAlpha then
          load inbuffer ((i * 1 * 4 % 4294967296 + toU32 src.srcAlpha) % 4294967296) >>= fun a =>
          Except.ok (writePixel m i ⟨b, g, r, a⟩)
        else Except.ok (writePixel m i ⟨b, g, r, 0⟩)) := by
  unfold convert8888to32_body
  simp only [toU32_Blue, toU32_Green, toU32_Red, toU32_Alpha,
    outIndex_unit i _ (by omega) (by decide : 0 < 4), outIndex_unit i _ (by omega) (by decide : 1 < 4),
    outIndex_unit i _ (by omega) (by decide : 2 < 4), outIndex_unit i _ (by omega) (by decide : 3 < 4)]
  cases load inbuffer ((i * 1 * 4 % 4294967296 + toU32 src.srcBlue) % 4294967296) with
  | error e => rfl
  | ok b =>
    simp only [ok_bind]
    rw [store_ok _ _ _ (by omega)]
    simp only [ok_bind]
    cases load inbuffer ((i * 1 * 4 % 4294967296 + toU32 src.srcGreen) % 4294967296) with
    | error e => rfl
    | ok g =>
      simp only [ok_bind]
      rw [store_ok _ _ _ (by simp; omega)]
      simp only [ok_bind]
      cases load inbuffer ((i * 1 * 4 % 4294967296 + toU32 src.srcRed) % 4294967296) with
      | error e => rfl
      | ok r =>
        simp only [ok_bind]
        rw [store_ok _ _ _ (by simp; omega)]
        simp only [ok_bind]
        by_cases hα : 0 ≤ src.srcAlpha
        · simp only [hα, if_true]
          cases load inbuffer ((i * 1 * 4 % 4294967296 + toU32 src.srcAlpha) % 4294967296) with
          | error e => rfl
          | ok a =>
            simp only [ok_bind]
            rw [store_ok _ _ _ (by simp; omega)]
            simp [writePixel]
        · simp only [hα, if_false]
          rw [store_ok _ _ _ (by simp; omega)]
          simp [writePixel]

theorem convert888to32_body_outcome (src : SrcOffsets) (inbuffer : Buffer) (i : Nat) (m : Mem)
    (hw : 4 * i + 3 < 4294967296) (hout : 4 * i + 3 < m.out.length) :
    (((i * 1 * 3 % 4294967296 + toU32 src.srcBlue) % 4294967296 < inbuffer.length ∧
      (i * 1 * 3 % 4294967296 + toU32 src.srcGreen) % 4294967296 < inbuffer.length ∧
      (i * 1 * 3 % 4294967296 + toU32 src.srcRed) % 4294967296 < inbuffer.length) ∧
      ∃ m1, convert888to32_body src inbuffer (i * 1) m = .ok m1 ∧
        m1.out.length = m.out.length) ∨
    (∃ idx, convert888to32_body src inbuffer (i * 1) m = .error (.readOutOfBounds idx) ∧
      inbuffer.length ≤ idx) := by
  rw [convert888to32_body_loads src inbuffer i m hw hout]
  by_cases hb : (i * 1 * 3 % 4294967296 + toU32 src.srcBlue) % 4294967296 < inbuffer.length
  · by_cases hg : (i * 1 * 3 % 4294967296 + toU32 src.srcGreen) % 4294967296 < inbuffer.length
    · by_cases hr : (i * 1 * 3 % 4294967296 + toU32 src.srcRed) % 4294967296 < inbuffer.length
      · left
        rw [load_ok _ _ hb, load_ok _ _ hg, load_ok _ _ hr]
        exact ⟨⟨hb, hg, hr⟩, _, rfl, by simp⟩
      · right
        rw [load_ok _ _ hb, load_ok _ _ hg, load_fault _ _ (by omega)]
        exact ⟨_, rfl, by omega⟩
    · right
      rw [load_ok _ _ hb, load_fault _ _ (by omega)]
      exact ⟨_, rfl, by omega⟩
  · right
    rw [load_fault _ _ (by omega)]
    exact ⟨_, rfl, by omega⟩

theorem convert8888to32_body_outcome (src : SrcOffsets) (inbuffer : Buffer) (i : Nat) (m : Mem)
    (hw : 4 * i + 3 < 4294967296) (hout : 4 * i + 3 < m.out.length) :
    (((i * 1 * 4 % 4294967296 + toU32 src.srcBlue) % 4294967296 < inbuffer.length ∧
      (i * 1 * 4 % 4294967296 + toU32 src.srcGreen) % 4294967296 < inbuffer.length ∧
      (i * 1 * 4 % 4294967296 + toU32 src.srcRed) % 4294967296 < inbuffer.length ∧
      (0 ≤ src.srcAlpha →
        (i * 1 * 4 % 4294967296 + toU32 src.srcAlpha) % 4294967296 < inbuffer.length)) ∧
      ∃ m1, convert8888to32_body src inbuffer (i * 1) m = .ok m1 ∧
        m1.out.length = m.out.length) ∨
    (∃ idx, convert8888to32_body src inbuffer (i * 1) m = .error (.readOutOfBounds idx) ∧
      inbuffer.length ≤ idx) := by
  rw [convert8888to32_body_loads src inbuffer i m hw hout]
  by_cases hb : (i * 1 * 4 % 4294967296 + toU32 src.srcBlue) % 4294967296 < inbuffer.length
  · by_cases hg : (i * 1 * 4 % 4294967296 + toU32 src.srcGreen) % 4294967296 < inbuffer.length
    · by_cases hr : (i * 1 * 4 % 4294967296 + toU32 src.srcRed) % 4294967296 < inbuffer.length
      · rw [load_ok _ _ hb, load_ok _ _ hg, load_ok _ _ hr]
        simp only [ok_bind]
        by_cases hα : 0 ≤ src.srcAlpha
        · simp only [hα, if_true]
          by_cases ha : (i * 1 * 4 % 4294967296 + toU32 src.srcAlpha) % 4294967296
              < inbuffer.length
          · left
            rw [load_ok _ _ ha]
            exact ⟨⟨hb, hg, hr, fun _ => ha⟩, _, rfl, by simp⟩
          · right
            rw [load_fault _ _ (by omega)]
            exact ⟨_, rfl, by omega⟩
        · left
          refine ⟨⟨hb, hg, hr, fun h => absurd h hα⟩, ?_⟩
          simp only [hα, if_false]
          exact ⟨_, rfl, by simp⟩
      · right
        rw [load_ok _ _ hb, load_ok _ _ hg, load_fault _ _ (by omega)]
        exact ⟨_, rfl, by omega⟩
    · right
      rw [load_ok _ _ hb, load_fault _ _ (by omega)]
      exact ⟨_, rfl, by omega⟩
  · right
    rw [load_fault _ _ (by omega)]
    exact ⟨_, rfl, by omega⟩

/-- If every iteration either succeeds or stops with a read outside the input, and
some iteration `j` cannot succeed, the loop stops with a read outside the input. -/
theorem iter_read_fault (body : Nat → Mem → Except Fault Mem) (step N L len : Nat)
    (hsafe : ∀ i m, i < N → m.out.length = L →
      (∃ m1, body (i * step) m = .ok m1 ∧ m1.out.length = L) ∨
      (∃ idx, body (i * step) m = .error (.readOutOfBounds idx) ∧ len ≤ idx))
    (j : Nat) (hbad : ∀ m m1, m.out.length = L → body (j * step) m ≠ .ok m1) :
    ∀ (k p : Nat) (m : Mem), p ≤ j → j < p + k → p + k ≤ N → m.out.length = L →
      ∃ idx, iter body step p k m = .error (.readOutOfBounds idx) ∧ len ≤ idx := by
  intro k
  induction k with
  | zero => intro p m h1 h2; omega
  | succ k ih =>
    intro p m h1 h2 h3 hL
    rw [iter]
    rcases hsafe p m (by omega) hL with ⟨m1, hm1, hL1⟩ | ⟨idx, hf, hidx⟩
    · rw [hm1]
      by_cases hpj : p = j
      · subst hpj
        exact absurd hm1 (hbad m m1 hL)
      · exact ih (p + 1) m1 (by omega) (by omega) (by omega) hL1
    · rw [hf]
      exact ⟨idx, rfl, hidx⟩

theorem exists_bad_pixel3 (N o : Nat) (hN : 1 ≤ N) (hdim : N * 4 < 4294967296) (ho : 3 ≤ o)
    (ho2 : o < 4294967296) :
    ∃ j, j < N ∧ N * 3 ≤ (j * 1 * 3 % 4294967296 + o) % 4294967296 := by
  by_cases h : N * 3 ≤ o
  · exact ⟨0, by omega, by omega⟩
  · exact ⟨N - o / 3, by omega, by omega⟩

theorem exists_bad_pixel4 (N o : Nat) (hN : 1 ≤ N) (hdim : N * 4 < 4294967296) (ho : 4 ≤ o)
    (ho2 : o < 4294967296) :
    ∃ j, j < N ∧ N * 4 ≤ (j * 1 * 4 % 4294967296 + o) % 4294967296 := by
  by_cases h : N * 4 ≤ o
  · exact ⟨0, by omega, by omega⟩
  · exact ⟨N - o / 4, by omega, by omega⟩

theorem toU32_of_ge (k : Nat) (x : Int) (hx : isInt x) (hk : (k : Int) ≤ x) :
    k ≤ toU32 x ∧ toU32 x < 4294967296 := by
  unfold isInt at hx
  unfold toU32
  omega

theorem convert888to32_read_fault (src : SrcOffsets) (width height : Nat) (inbuffer : Buffer)
    (outbuffer : Mem) (hN : 1 ≤ width * height) (hdim : width * height * 4 < 4294967296)
    (hin : inbuffer.length = width * height * 3)
    (hout : outbuffer.out.length = width * height * 4)
    (hb : isInt src.srcBlue) (hg : isInt src.srcGreen) (hr : isInt src.srcRed)
    (hbad : 3 ≤ src.srcBlue ∨ 3 ≤ src.srcGreen ∨ 3 ≤ src.srcRed) :
    ∃ idx, convert888to32 src width height inbuffer outbuffer = .error (.readOutOfBounds idx) ∧
      inbuffer.length ≤ idx := by
  unfold convert888to32
  have hbd : toU32 (height : Int) * toU32 (width : Int) % 4294967296 = width * height * 1 := by
    rw [loopBound_nat]
    omega
  have h0 : (0 : Nat) = 0 * 1 := rfl
  rw [hbd]
  conv => enter [1, idx, 1, 1, 5]; rw [h0]
  rw [forLoop_eq_iter _ 1 (width * height) (by decide) (by omega) (width * height) 0 loopFuel
    outbuffer (by omega) (by unfold loopFuel; omega)]
  have hsafe : ∀ i m, i < width * height → m.out.length = width * height * 4 →
      (∃ m1, convert888to32_body src inbuffer (i * 1) m = .ok m1 ∧
        m1.out.length = width * height * 4) ∨
      (∃ idx, convert888to32_body src inbuffer (i * 1) m = .error (.readOutOfBounds idx) ∧
        inbuffer.length ≤ idx) := by
    intro i m hi hm
    rcases convert888to32_body_outcome src inbuffer i m (by omega) (by omega) with
      ⟨_, m1, h1, h2⟩ | h
    · exact Or.inl ⟨m1, h1, by omega⟩
    · exact Or.inr h
  have hj : ∃ j, j < width * height ∧ ∀ m m1, m.out.length = width * height * 4 →
      convert888to32_body src inbuffer (j * 1) m ≠ .ok m1 := by
    have key : ∀ o, (o = toU32 src.srcBlue ∨ o = toU32 src.srcGreen ∨ o = toU32 src.srcRed) →
        3 ≤ o → o < 4294967296 →
        ∃ j, j < width * height ∧ ∀ m m1, m.out.length = width * height * 4 →
          convert888to32_body src inbuffer (j * 1) m ≠ .ok m1 := by
      intro o ho h3 h32
      obtain ⟨j, hjN, hjbad⟩ := exists_bad_pixel3 (width * height) o hN hdim h3 h32
      refine ⟨j, hjN, ?_⟩
      intro m m1 hm
      rcases convert888to32_body_outcome src inbuffer j m (by omega) (by omega) with
        ⟨⟨i1, i2, i3⟩, _⟩ | ⟨idx, hf, _⟩
      · rcases ho with rfl | rfl | rfl <;> omega
      · rw [hf]
        intro h
        cases h
    rcases hbad with h | h | h
    · have t := toU32_of_ge 3 _ hb h
      exact key _ (Or.inl rfl) t.1 t.2
    · have t := toU32_of_ge 3 _ hg h
      exact key _ (Or.inr (Or.inl rfl)) t.1 t.2
    · have t := toU32_of_ge 3 _ hr h
      exact key _ (Or.inr (Or.inr rfl)) t.1 t.2
  obtain ⟨j, hjN, hjbad⟩ := hj
  exact iter_read_fault _ 1 (width * height) (width * height * 4) inbuffer.length hsafe j hjbad
    (width * height) 0 outbuffer (by omega) (by omega) (by omega) hout

theorem convert8888to32_read_fault (src : SrcOffsets) (width height : Nat) (inbuffer : Buffer)
    (outbuffer : Mem) (hN : 1 ≤ width * height) (hdim : width * height * 4 < 4294967296)
    (hin : inbuffer.length = width * height * 4)
    (hout : outbuffer.out.length = width * height * 4)
    (hb : isInt src.srcBlue) (hg : isInt src.srcGreen) (hr : isInt src.srcRed)
    (ha : isInt src.srcAlpha)
    (hbad : 4 ≤ src.srcBlue ∨ 4 ≤ src.srcGreen ∨ 4 ≤ src.srcRed ∨ 4 ≤ src.srcAlpha) :
    ∃ idx, convert8888to32 src width height inbuffer outbuffer = .error (.readOutOfBounds idx) ∧
      inbuffer.length ≤ idx := by
  unfold convert8888to32
  have hbd : toU32 (height : Int) * toU32 (width : Int) % 4294967296 = width * height * 1 := by
    rw [loopBound_nat]
    omega
  have h0 : (0 : Nat) = 0 * 1 := rfl
  rw [hbd]
  conv => enter [1, idx, 1, 1, 5]; rw [h0]
  rw [forLoop_eq_iter _ 1 (width * height) (by decide) (by omega) (width * height) 0 loopFuel
    outbuffer (by omega) (by unfold loopFuel; omega)]
  have hsafe : ∀ i m, i < width * height → m.out.length = width * height * 4 →
      (∃ m1, convert8888to32_body src inbuffer (i * 1) m = .ok m1 ∧
        m1.out.length = width * height * 4) ∨
      (∃ idx, convert8888to32_body src inbuffer (i * 1) m = .error (.readOutOfBounds idx) ∧
        inbuffer.length ≤ idx) := by
    intro i m hi hm
    rcases convert8888to32_body_outcome src inbuffer i m (by omega) (by omega) with
      ⟨_, m1, h1, h2⟩ | h
    · exact Or.inl ⟨m1, h1, by omega⟩
    · exact Or.inr h
  have hj : ∃ j, j < width * height ∧ ∀ m m1, m.out.length = width * height * 4 →
      convert8888to32_body src inbuffer (j * 1) m ≠ .ok m1 := by
    have key : ∀ o, (o = toU32 src.srcBlue ∨ o = toU32 src.srcGreen ∨ o = toU32 src.srcRed ∨
          (0 ≤ src.srcAlpha ∧ o = toU32 src.srcAlpha)) →
        4 ≤ o → o < 4294967296 →
        ∃ j, j < width * height ∧ ∀ m m1, m.out.length = width * height * 4 →
          convert8888to32_body src inbuffer (j * 1) m ≠ .ok m1 := by
      intro o ho h3 h32
      obtain ⟨j, hjN, hjbad⟩ := exists_bad_pixel4 (width * height) o hN hdim h3 h32
      refine ⟨j, hjN, ?_⟩
      intro m m1 hm
      rcases convert8888to32_body_outcome src inbuffer j m (by omega) (by omega) with
        ⟨⟨i1, i2, i3, i4⟩, _⟩ | ⟨idx, hf, _⟩
      · rcases ho with rfl | rfl | rfl | ⟨hα, rfl⟩
        · omega
        · omega
        · omega
        · have := i4 hα
          omega
      · rw [hf]
        intro h
        cases h
    rcases hbad with h | h | h | h
    · have t := toU32_of_ge 4 _ hb h
      exact key _ (Or.inl rfl) t.1 t.2
    · have t := toU32_of_ge 4 _ hg h
      exact key _ (Or.inr (Or.inl rfl)) t.1 t.2
    · have t := toU32_of_ge 4 _ hr h
      exact key _ (Or.inr (Or.inr (Or.inl rfl))) t.1 t.2
    · have t := toU32_of_ge 4 _ ha h
      exact key _ (Or.inr (Or.inr (Or.inr ⟨by omega, rfl⟩))) t.1 t.2
  obtain ⟨j, hjN, hjbad⟩ := hj
  exact iter_read_fault _ 1 (width * height) (width * height * 4) inbuffer.length hsafe j hjbad
    (width * height) 0 outbuffer (by omega) (by omega) (by omega) hout

theorem paint_writes_lt (f : Nat → BGRA) (N : Nat) (out : Buffer) :
    ∀ idx ∈ (paint f 0 N ⟨out, []⟩).writes, idx < N * 4 := by
  intro idx hidx
  rw [paint_writes] at hidx
  simp only [List.nil_append, List.mem_range'_1] at hidx
  omega

/-- C9: for `width * height * 4 < 2^32` and an input buffer of exactly
`width * height * k` bytes (`k = 2` for 15/16-bit, `3` for 24-bit, `4` for 32-bit) no
converter reads outside the input buffer or writes outside the
`width * height * 4`-byte output buffer (the run ends without a `Fault` and every
logged store index is below `width * height * 4`), provided that for 24/32-bit
every channel offset used lies in `0 .. k-1`.  When some used offset is `≥ k`, and the
image has at least one pixel, a read falls outside the input buffer. -/
theorem converters_index_safety :
    (∀ (width height : Nat) (inbuffer outbuffer : Buffer),
      width * height * 4 < 4294967296 → inbuffer.length = width * height * 2 →
      outbuffer.length = width * height * 4 →
      (∃ m, convert1555to32 width height inbuffer ⟨outbuffer, []⟩ = .ok m ∧
        ∀ idx ∈ m.writes, idx < width * height * 4) ∧
      (∃ m, convert565to32 width height inbuffer ⟨outbuffer, []⟩ = .ok m ∧
        ∀ idx ∈ m.writes, idx < width * height * 4)) ∧
    (∀ (src : SrcOffsets) (width height : Nat) (inbuffer outbuffer : Buffer),
      width * height * 4 < 4294967296 → inbuffer.length = width * height * 3 →
      outbuffer.length = width * height * 4 →
      offsetOk 3 src.srcBlue → offsetOk 3 src.srcGreen → offsetOk 3 src.srcRed →
      ∃ m, convert888to32 src width height inbuffer ⟨outbuffer, []⟩ = .ok m ∧
        ∀ idx ∈ m.writes, idx < width * height * 4) ∧
    (∀ (src : SrcOffsets) (width height : Nat) (inbuffer outbuffer : Buffer),
      width * height * 4 < 4294967296 → inbuffer.length = width * height * 4 →
      outbuffer.length = width * height * 4 →
      offsetOk 4 src.srcBlue → offsetOk 4 src.srcGreen → offsetOk 4 src.srcRed →
      (0 ≤ src.srcAlpha → offsetOk 4 src.srcAlpha) →
      ∃ m, convert8888to32 src width height inbuffer ⟨outbuffer, []⟩ = .ok m ∧
        ∀ idx ∈ m.writes, idx < width * height * 4) ∧
    (∀ (src : SrcOffsets) (width height : Nat) (inbuffer outbuffer : Buffer),
      1 ≤ width * height → width * height * 4 < 4294967296 →
      inbuffer.length = width * height * 3 → outbuffer.length = width * height * 4 →
      isInt src.srcBlue → isInt src.srcGreen → isInt src.srcRed →
      (3 ≤ src.srcBlue ∨ 3 ≤ src.srcGreen ∨ 3 ≤ src.srcRed) →
      ∃ idx, convert888to32 src width height inbuffer ⟨outbuffer, []⟩
          = .error (.readOutOfBounds idx) ∧ inbuffer.length ≤ idx) ∧
    (∀ (src : SrcOffsets) (width height : Nat) (inbuffer outbuffer : Buffer),
      1 ≤ width * height → width * height * 4 < 4294967296 →
      inbuffer.length = width * height * 4 → outbuffer.length = width * height * 4 →
      isInt src.srcBlue → isInt src.srcGreen → isInt src.srcRed → isInt src.srcAlpha →
      (4 ≤ src.srcBlue ∨ 4 ≤ src.srcGreen ∨ 4 ≤ src.srcRed ∨ 4 ≤ src.srcAlpha) →
      ∃ idx, convert8888to32 src width height inbuffer ⟨outbuffer, []⟩
          = .error (.readOutOfBounds idx) ∧ inbuffer.length ≤ idx) := by
  refine ⟨?_, ?_, ?_, ?_, ?_⟩
  · intro width height inbuffer outbuffer hdim hin hout
    exact ⟨⟨_, convert1555to32_eq_paint width height inbuffer ⟨outbuffer, []⟩ (by omega) hin hout,
        paint_writes_lt _ _ _⟩,
      ⟨_, convert565to32_eq_paint width height inbuffer ⟨outbuffer, []⟩ (by omega) hin hout,
        paint_writes_lt _ _ _⟩⟩
  · intro src width height inbuffer outbuffer hdim hin hout hb hg hr
    exact ⟨_, convert888to32_eq_paint src width height inbuffer ⟨outbuffer, []⟩ (by omega) hin
      hout hb hg hr, paint_writes_lt _ _ _⟩
  · intro src width height inbuffer outbuffer hdim hin hout hb hg hr ha
    exact ⟨_, convert8888to32_eq_paint src width height inbuffer ⟨outbuffer, []⟩ (by omega) hin
      hout hb hg hr ha, paint_writes_lt _ _ _⟩
  · intro src width height inbuffer outbuffer hN hdim hin hout hb hg hr hbad
    exact convert888to32_read_fault src width height inbuffer ⟨outbuffer, []⟩ hN hdim hin hout
      hb hg hr hbad
  · intro src width height inbuffer outbuffer hN hdim hin hout hb hg hr ha hbad
    exact convert8888to32_read_fault src width height inbuffer ⟨outbuffer, []⟩ hN hdim hin hout
      hb hg hr ha hbad

/-- C9, witness: a 2 x 1 image in the 32-bit format is converted without a fault
under the initial offsets, and with the alpha offset moved to 4 the read for the
last pixel leaves the 8-byte input. -/
theorem converters_index_safety_witness :
    (∃ m, convert8888to32 initialOffsets 2 1 [1, 2, 3, 4, 5, 6, 7, 8]
        ⟨[0, 0, 0, 0, 0, 0, 0, 0], []⟩ = .ok m ∧ ∀ idx ∈ m.writes, idx < 2 * 1 * 4) ∧
    (∃ idx, convert8888to32 ⟨0, 1, 2, 4⟩ 2 1 [1, 2, 3, 4, 5, 6, 7, 8]
        ⟨[0, 0, 0, 0, 0, 0, 0, 0], []⟩ = .error (.readOutOfBounds idx) ∧ 8 ≤ idx) :=
  ⟨converters_index_safety.2.2.1 initialOffsets 2 1 [1, 2, 3, 4, 5, 6, 7, 8]
      [0, 0, 0, 0, 0, 0, 0, 0] (by decide) (by decide) (by decide) (by decide) (by decide)
      (by decide) (fun _ => by decide),
    converters_index_safety.2.2.2.2 ⟨0, 1, 2, 4⟩ 2 1 [1, 2, 3, 4, 5, 6, 7, 8]
      [0, 0, 0, 0, 0, 0, 0, 0] (by decide) (by decide) (by decide) (by decide) (by decide)
      (by decide) (by decide) (by decide) (by decide)⟩

theorem run_pure_bind {α β : Type} (a : α) (f : α → Run β) : (pure a >>= f) = f a := rfl

theorem run_fatal_bind {α β : Type} (e : Fatal) (f : α → Run β) :
    ((fatal_error e : Run α) >>= f) = fatal_error e := rfl

theorem convert_and_write_alloc_fails (env : Env) (src : SrcOffsets) (inbuffer : Buffer)
    (filename : String) (width height bits interlace compression : Int)
    (h : env.mallocOutput = false) :
    convert_and_write env src inbuffer filename width height bits interlace compression
      = ⟨[], .error .notEnoughMemory⟩ := by
  unfold convert_and_write
  simp only [h, Bool.false_eq_true, not_false_eq_true, if_true]
  rfl

theorem convert_and_write_unsupported (env : Env) (src : SrcOffsets) (inbuffer : Buffer)
    (filename : String) (width height bits interlace compression : Int)
    (h : env.mallocOutput = true) (hb : ¬ supportedDepth bits) :
    convert_and_write env src inbuffer filename width height bits interlace compression
      = ⟨[], .error (.unsupportedBitDepth bits)⟩ := by
  unfold supportedDepth at hb
  have h15 : ¬ bits = 15 := fun e => hb (Or.inl e)
  have h16 : ¬ bits = 16 := fun e => hb (Or.inr (Or.inl e))
  have h24 : ¬ bits = 24 := fun e => hb (Or.inr (Or.inr (Or.inl e)))
  have h32 : ¬ bits = 32 := fun e => hb (Or.inr (Or.inr (Or.inr e)))
  unfold convert_and_write
  simp only [h, not_true_eq_false, if_false, run_pure_bind, h15, h16, h24, h32]
  rfl

theorem convert_and_write_supported (env : Env) (src : SrcOffsets) (inbuffer : Buffer)
    (filename : String) (width height bits interlace compression : Int)
    (h : env.mallocOutput = true) (hb : supportedDepth bits) :
    convert_and_write env src inbuffer filename width height bits interlace compression
      = (runConverter bits (selectedConverter src bits width height inbuffer
            ⟨constBuffer (bufsize width height) 0, []⟩) >>= fun out =>
          write_PNG env out filename width height interlace compression) := by
  unfold convert_and_write selectedConverter
  simp only [h, not_true_eq_false, if_false, run_pure_bind]
  rcases hb with rfl | rfl | rfl | rfl <;> simp

theorem runConverter_ok (bits : Int) (m : Mem) :
    runConverter bits (.ok m) = ⟨[.convert bits, .converted bits m.writes], .ok m.out⟩ := rfl

theorem runConverter_error (bits : Int) (f : Fault) :
    runConverter bits (.error f) = ⟨[.convert bits], .error (.memoryFault f)⟩ := rfl

theorem run_bind_ok {α β : Type} (t : List Event) (a : α) (f : α → Run β) :
    ((⟨t, .ok a⟩ : Run α) >>= f) = ⟨t ++ (f a).trace, (f a).result⟩ := rfl

theorem run_bind_error {α β : Type} (t : List Event) (e : Fatal) (f : α → Run β) :
    ((⟨t, .error e⟩ : Run α) >>= f) = ⟨t, .error e⟩ := rfl

/-- The trace of `write_PNG` starts with its call event; the only other events
are the opening of the destination and the write of the image. -/
theorem write_PNG_trace (env : Env) (outbuffer : Buffer) (filename : String)
    (width height interlace compression : Int) :
    ∃ rest, (write_PNG env outbuffer filename width height interlace compression).trace
        = .writePNG outbuffer filename width height interlace compression :: rest ∧
      ∀ e ∈ rest, e = .fopen filename ∨ e = .pngWriteImage := by
  unfold write_PNG
  by_cases hf : filename = "-" <;> cases h1 : env.fopenOk <;> cases h2 : env.pngWriteStructOk <;>
    cases h3 : env.pngInfoStructOk <;>
    simp [hf, h1, h2, h3, bind, Run.bind, emit, fatal_error, pure]

theorem encoderCalls_write_PNG (env : Env) (outbuffer : Buffer) (filename : String)
    (width height interlace compression : Int) :
    encoderCalls (write_PNG env outbuffer filename width height interlace compression).trace
      = [outbuffer] := by
  obtain ⟨rest, h, hrest⟩ := write_PNG_trace env outbuffer filename width height interlace
    compression
  rw [h]
  unfold encoderCalls
  rw [List.filterMap_cons]
  simp only
  congr 1
  rw [List.filterMap_eq_nil_iff]
  intro e he
  rcases hrest e he with rfl | rfl <;> rfl

theorem convertCalls_write_PNG (env : Env) (outbuffer : Buffer) (filename : String)
    (width height interlace compression : Int) :
    convertCalls (write_PNG env outbuffer filename width height interlace compression).trace
      = [] := by
  obtain ⟨rest, h, hrest⟩ := write_PNG_trace env outbuffer filename width height interlace
    compression
  rw [h]
  unfold convertCalls
  rw [List.filterMap_eq_nil_iff]
  intro e he
  rcases List.mem_cons.1 he with rfl | he
  · rfl
  · rcases hrest e he with rfl | rfl <;> rfl

theorem convertReturns_write_PNG (env : Env) (outbuffer : Buffer) (filename : String)
    (width height interlace compression : Int) :
    convertReturns (write_PNG env outbuffer filename width height interlace compression).trace
      = [] := by
  obtain ⟨rest, h, hrest⟩ := write_PNG_trace env outbuffer filename width height interlace
    compression
  rw [h]
  unfold convertReturns
  rw [List.filterMap_eq_nil_iff]
  intro e he
  rcases List.mem_cons.1 he with rfl | he
  · rfl
  · rcases hrest e he with rfl | rfl <;> rfl

theorem changeVtCalls_write_PNG (env : Env) (outbuffer : Buffer) (filename : String)
    (width height interlace compression : Int) :
    changeVtCalls (write_PNG env outbuffer filename width height interlace compression).trace
      = [] := by
  obtain ⟨rest, h, hrest⟩ := write_PNG_trace env outbuffer filename width height interlace
    compression
  rw [h]
  unfold changeVtCalls
  rw [List.filterMap_eq_nil_iff]
  intro e he
  rcases List.mem_cons.1 he with rfl | he
  · rfl
  · rcases hrest e he with rfl | rfl <;> rfl

theorem write_PNG_result (env : Env) (outbuffer : Buffer) (filename : String)
    (width height interlace compression : Int) (b : Int) :
    (write_PNG env outbuffer filename width height interlace compression).result
      ≠ .error (.unsupportedBitDepth b) := by
  unfold write_PNG
  by_cases hf : filename = "-" <;> cases h1 : env.fopenOk <;> cases h2 : env.pngWriteStructOk <;>
    cases h3 : env.pngInfoStructOk <;>
    simp [hf, h1, h2, h3, bind, Run.bind, emit, fatal_error, pure]

theorem bufsize_nat (width height : Nat) (hdim : width * height * 4 ≤ 4294967296) :
    bufsize (width : Int) (height : Int) = width * height * 4 := by
  unfold bufsize toU64
  have e1 : ((width : Int) % 18446744073709551616).toNat = width % 18446744073709551616 := by
    omega
  have e2 : ((height : Int) % 18446744073709551616).toNat = height % 18446744073709551616 := by
    omega
  rw [e1, e2, ← Nat.mul_mod]
  omega

theorem zeroed_length (width height : Nat) (hdim : width * height * 4 ≤ 4294967296) :
    (⟨constBuffer (bufsize (width : Int) (height : Int)) 0, []⟩ : Mem).out.length
      = width * height * 4 := by
  show (constBuffer _ 0).length = _
  rw [constBuffer_length, bufsize_nat width height hdim]

/-- On a well-formed input within the 32-bit range the selected converter writes
the pixels `0 .. width * height - 1` in order into the zeroed output buffer. -/
theorem selectedConverter_eq_paint (src : SrcOffsets) (bits : Int) (width height : Nat)
    (inbuffer : Buffer) (hbits : supportedDepth bits) (hdim : width * height * 4 ≤ 4294967296)
    (hin : inbuffer.length = width * height * bytesPerPixel bits)
    (hoff : offsetsOkFor bits src) :
    ∃ f, selectedConverter src bits width height inbuffer
        ⟨constBuffer (bufsize (width : Int) (height : Int)) 0, []⟩
      = .ok (paint f 0 (width * height)
          ⟨constBuffer (bufsize (width : Int) (height : Int)) 0, []⟩) := by
  have hz := zeroed_length width height hdim
  unfold selectedConverter
  rcases hbits with rfl | rfl | rfl | rfl
  · exact ⟨_, by
      simp only [if_true]
      exact convert1555to32_eq_paint width height inbuffer _ hdim hin hz⟩
  · exact ⟨_, by
      simp only [if_neg (by decide : ¬ (16 : Int) = 15), if_true]
      exact convert565to32_eq_paint width height inbuffer _ hdim hin hz⟩
  · have h := hoff.1 rfl
    exact ⟨_, by
      simp only [if_neg (by decide : ¬ (24 : Int) = 15), if_neg (by decide : ¬ (24 : Int) = 16),
        if_true]
      exact convert888to32_eq_paint src width height inbuffer _ hdim hin hz h.1 h.2.1 h.2.2⟩
  · have h := hoff.2 rfl
    exact ⟨_, by
      simp only [if_neg (by decide : ¬ (32 : Int) = 15), if_neg (by decide : ¬ (32 : Int) = 16),
        if_neg (by decide : ¬ (32 : Int) = 24), if_false]
      exact convert8888to32_eq_paint src width height inbuffer _ hdim hin hz h.1 h.2.1 h.2.2.1
        h.2.2.2⟩

theorem convert_and_write_ok (env : Env) (src : SrcOffsets) (inbuffer : Buffer)
    (filename : String) (width height bits interlace compression : Int) (m : Mem)
    (h : env.mallocOutput = true) (hb : supportedDepth bits)
    (hm : selectedConverter src bits width height inbuffer
      ⟨constBuffer (bufsize width height) 0, []⟩ = .ok m) :
    convert_and_write env src inbuffer filename width height bits interlace compression
      = ⟨[.convert bits, .converted bits m.writes]
          ++ (write_PNG env m.out filename width height interlace compression).trace,
        (write_PNG env m.out filename width height interlace compression).result⟩ := by
  rw [convert_and_write_supported env src inbuffer filename width height bits interlace
    compression h hb, hm, runConverter_ok, run_bind_ok]

theorem convert_and_write_fault (env : Env) (src : SrcOffsets) (inbuffer : Buffer)
    (filename : String) (width height bits interlace compression : Int) (f : Fault)
    (h : env.mallocOutput = true) (hb : supportedDepth bits)
    (hm : selectedConverter src bits width height inbuffer
      ⟨constBuffer (bufsize width height) 0, []⟩ = .error f) :
    convert_and_write env src inbuffer filename width height bits interlace compression
      = ⟨[.convert bits], .error (.memoryFault f)⟩ := by
  rw [convert_and_write_supported env src inbuffer filename width height bits interlace
    compression h hb, hm, runConverter_error, run_bind_error]

/-- C6, as amended: provided the allocation of the output buffer succeeds,
`convert_and_write` fails with the unsupported-bit-depth error if and only if the bit
depth is not one of 15, 16, 24, 32; in that case it emits no event at all (no
converter is called, `write_PNG` is not invoked, no destination is opened).  For a
supported depth exactly one converter is called, the one for that depth; when it
returns, `write_PNG` is invoked exactly once, directly afterwards and on the
converter's output; and it does return for every well-formed input with
`width * height * 4` up to `2^32`. -/
theorem convert_and_write_dispatch (env : Env) (src : SrcOffsets) (inbuffer : Buffer)
    (filename : String) (width height bits interlace compression : Int)
    (halloc : env.mallocOutput = true) :
    ((∃ b, (convert_and_write env src inbuffer filename width height bits interlace
        compression).result = .error (.unsupportedBitDepth b)) ↔ ¬ supportedDepth bits) ∧
    (¬ supportedDepth bits →
      (convert_and_write env src inbuffer filename width height bits interlace
        compression).trace = []) ∧
    (supportedDepth bits →
      convertCalls (convert_and_write env src inbuffer filename width height bits interlace
        compression).trace = [bits] ∧
      (∀ m, selectedConverter src bits width height inbuffer
          ⟨constBuffer (bufsize width height) 0, []⟩ = .ok m →
        convertReturns (convert_and_write env src inbuffer filename width height bits interlace
          compression).trace = [bits] ∧
        encoderCalls (convert_and_write env src inbuffer filename width height bits interlace
          compression).trace = [m.out] ∧
        (convert_and_write env src inbuffer filename width height bits interlace
          compression).trace.take 3 = [.convert bits, .converted bits m.writes,
            .writePNG m.out filename width height interlace compression]) ∧
      (0 ≤ width → 0 ≤ height → width * height * 4 ≤ 4294967296 →
        inbuffer.length = (width * height).toNat * bytesPerPixel bits →
        offsetsOkFor bits src →
        ∃ m, selectedConverter src bits width height inbuffer
          ⟨constBuffer (bufsize width height) 0, []⟩ = .ok m)) := by
  refine ⟨⟨?_, ?_⟩, ?_, ?_⟩
  · rintro ⟨b, hb⟩ hs
    cases hm : selectedConverter src bits width height inbuffer
        ⟨constBuffer (bufsize width height) 0, []⟩ with
    | ok m =>
      rw [convert_and_write_ok env src inbuffer filename width height bits interlace compression
        m halloc hs hm] at hb
      exact write_PNG_result env m.out filename width height interlace compression b hb
    | error f =>
      rw [convert_and_write_fault env src inbuffer filename width height bits interlace
        compression f halloc hs hm] at hb
      cases hb
  · intro hs
    exact ⟨bits, by rw [convert_and_write_unsupported env src inbuffer filename width height bits
      interlace compression halloc hs]⟩
  · intro hs
    rw [convert_and_write_unsupported env src inbuffer filename width height bits interlace
      compression halloc hs]
  · intro hs
    refine ⟨?_, ?_, ?_⟩
    · cases hm : selectedConverter src bits width height inbuffer
          ⟨constBuffer (bufsize width height) 0, []⟩ with
      | ok m =>
        rw [convert_and_write_ok env src inbuffer filename width height bits interlace
          compression m halloc hs hm]
        show convertCalls (_ :: _ :: _) = _
        unfold convertCalls
        rw [List.filterMap_cons, List.filterMap_cons]
        simp only
        congr 1
        exact convertCalls_write_PNG _ _ _ _ _ _ _
      | error f =>
        rw [convert_and_write_fault env src inbuffer filename width height bits interlace
          compression f halloc hs hm]
        rfl
    · intro m hm
      rw [convert_and_write_ok env src inbuffer filename width height bits interlace compression
        m halloc hs hm]
      obtain ⟨rest, hr, _⟩ := write_PNG_trace env m.out filename width height interlace
        compression
      refine ⟨?_, ?_, ?_⟩
      · show convertReturns (_ :: _ :: _) = _
        unfold convertReturns
        rw [List.filterMap_cons, List.filterMap_cons]
        simp only
        congr 1
        exact convertReturns_write_PNG _ _ _ _ _ _ _
      · show encoderCalls (_ :: _ :: _) = _
        unfold encoderCalls
        rw [List.filterMap_cons, List.filterMap_cons]
        simp only
        exact encoderCalls_write_PNG _ _ _ _ _ _ _
      · simp only [hr]
        rfl
    · intro hw hh hdim hin hoff
      obtain ⟨w, rfl⟩ := Int.eq_ofNat_of_zero_le hw
      obtain ⟨h, rfl⟩ := Int.eq_ofNat_of_zero_le hh
      have hdim' : w * h * 4 ≤ 4294967296 := by exact_mod_cast hdim
      have hnat : ((w : Int) * (h : Int)).toNat = w * h := by
        rw [← Nat.cast_mul, Int.toNat_natCast]
      rw [hnat] at hin
      obtain ⟨f, hf⟩ := selectedConverter_eq_paint src bits w h inbuffer hs hdim' hin hoff
      exact ⟨_, hf⟩

/-- C6, witness: with a successful allocation, depth 8 leaves an empty trace and
depth 32 calls exactly the 32-bit converter. -/
theorem convert_and_write_dispatch_witness :
    (convert_and_write sampleEnv initialOffsets [10, 20, 30, 40] "out.png" 1 1 8 0 0).trace = [] ∧
    convertCalls
      (convert_and_write sampleEnv initialOffsets [10, 20, 30, 40] "out.png" 1 1 32 0 0).trace
      = [32] :=
  ⟨(convert_and_write_dispatch sampleEnv initialOffsets [10, 20, 30, 40] "out.png" 1 1 8 0 0
      rfl).2.1 (by decide),
    ((convert_and_write_dispatch sampleEnv initialOffsets [10, 20, 30, 40] "out.png" 1 1 32 0 0
      rfl).2.2 (by decide)).1⟩

/-- C6, counterexample: when `malloc` of the output buffer fails, depth 8 is not
rejected with the unsupported-bit-depth error but with `Not enough memory`, and for
the supported depth 32 no converter is called and `write_PNG` is not invoked. -/
theorem convert_and_write_alloc_failure :
    ¬ supportedDepth 8 ∧
    (convert_and_write { sampleEnv with mallocOutput := false } initialOffsets [10, 20, 30, 40]
      "out.png" 1 1 8 0 0).result = .error .notEnoughMemory ∧
    supportedDepth 32 ∧
    (convert_and_write { sampleEnv with mallocOutput := false } initialOffsets [10, 20, 30, 40]
      "out.png" 1 1 32 0 0).trace = [] := by
  decide

/-- C5, as amended: for `width * height * 4` up to `2^32`, every supported bit depth,
a raw buffer of `width * height` pixels, channel offsets inside the pixel and a
successful allocation, `convert_and_write` hands `write_PNG` a buffer of exactly
`width * height * 4` bytes, and the stores of the selected converter are exactly the
byte offsets `0, 1, ..., width * height * 4 - 1` in increasing order: every pixel is
visited once, its four bytes are written, and nothing outside the buffer is. -/
theorem convert_and_write_canonical (env : Env) (src : SrcOffsets) (inbuffer : Buffer)
    (filename : String) (width height : Nat) (bits interlace compression : Int)
    (halloc : env.mallocOutput = true) (hbits : supportedDepth bits)
    (hdim : width * height * 4 ≤ 4294967296)
    (hin : inbuffer.length = width * height * bytesPerPixel bits)
    (hoff : offsetsOkFor bits src) :
    ∃ out, out.length = width * height * 4 ∧
      (convert_and_write env src inbuffer filename width height bits interlace
        compression).trace.take 3 =
          [.convert bits, .converted bits (List.range (width * height * 4)),
            .writePNG out filename width height interlace compression] ∧
      encoderCalls (convert_and_write env src inbuffer filename width height bits interlace
        compression).trace = [out] := by
  obtain ⟨f, hf⟩ := selectedConverter_eq_paint src bits width height inbuffer hbits hdim hin hoff
  have hz := zeroed_length width height hdim
  rw [convert_and_write_ok env src inbuffer filename width height bits interlace compression _
    halloc hbits hf]
  obtain ⟨rest, hr, _⟩ := write_PNG_trace env
    (paint f 0 (width * height) ⟨constBuffer (bufsize (width : Int) (height : Int)) 0, []⟩).out
    filename width height interlace compression
  have hw : (paint f 0 (width * height)
      ⟨constBuffer (bufsize (width : Int) (height : Int)) 0, []⟩).writes
      = List.range (width * height * 4) := by
    rw [paint_writes, List.range_eq_range']
    simp only [List.nil_append, Nat.mul_zero]
    rw [Nat.mul_comm 4]
  refine ⟨(paint f 0 (width * height)
    ⟨constBuffer (bufsize (width : Int) (height : Int)) 0, []⟩).out, ?_, ?_, ?_⟩
  · rw [paint_length]
    exact hz
  · simp only [hr, hw]
    rfl
  · show encoderCalls (_ :: _ :: _) = _
    unfold encoderCalls
    rw [List.filterMap_cons, List.filterMap_cons]
    simp only
    exact encoderCalls_write_PNG _ _ _ _ _ _ _

/-- C5, witness: one 32-bit pixel; the converter stores to offsets 0, 1, 2, 3 and
the encoder receives four bytes. -/
theorem convert_and_write_canonical_witness :
    ∃ out, out.length = 1 * 1 * 4 ∧
      (convert_and_write sampleEnv initialOffsets [10, 20, 30, 40] "out.png" 1 1 32 0
        0).trace.take 3 =
          [.convert 32, .converted 32 (List.range (1 * 1 * 4)),
            .writePNG out "out.png" 1 1 0 0] ∧
      encoderCalls (convert_and_write sampleEnv initialOffsets [10, 20, 30, 40] "out.png" 1 1 32
        0 0).trace = [out] :=
  convert_and_write_canonical sampleEnv initialOffsets [10, 20, 30, 40] "out.png" 1 1 32 0 0 rfl
    (by decide) (by decide) (by decide) (by decide)

/-- C5, counterexample: for a 65536 x 32768 image at 16 bits per pixel the loop
bound of `convert565to32` wraps to `0`; the converter returns without a single
store, so no pixel is visited, although the raw buffer holds `65536 * 32768`
pixels. -/
theorem convert_and_write_wraps :
    supportedDepth 16 ∧
    (constBuffer 4294967296 255).length = 65536 * 32768 * bytesPerPixel 16 ∧
    (convert_and_write sampleEnv initialOffsets (constBuffer 4294967296 255) "out.png" 65536
      32768 16 0 0).trace.take 2 = [.convert 16, .converted 16 []] := by
  refine ⟨by decide, constBuffer_length _ _, ?_⟩
  have hm : selectedConverter initialOffsets 16 65536 32768 (constBuffer 4294967296 255)
      ⟨constBuffer (bufsize 65536 32768) 0, []⟩
      = .ok ⟨constBuffer (bufsize 65536 32768) 0, []⟩ := by
    unfold selectedConverter
    simp only [if_neg (by decide : ¬ (16 : Int) = 15), if_true]
    exact forLoop_done _ _ _ _ _ _ (by decide)
  rw [convert_and_write_ok sampleEnv initialOffsets _ "out.png" 65536 32768 16 0 0 _ rfl
    (by decide) hm]
  rfl

theorem run_bind_of_ok {α β : Type} (r : Run α) (f : α → Run β) (a : α)
    (h : r.result = .ok a) :
    (r >>= f).trace = r.trace ++ (f a).trace ∧ (r >>= f).result = (f a).result := by
  show (Run.bind r f).trace = _ ∧ (Run.bind r f).result = _
  unfold Run.bind
  rw [h]
  exact ⟨rfl, rfl⟩

theorem run_bind_of_error {α β : Type} (r : Run α) (f : α → Run β) (e : Fatal)
    (h : r.result = .error e) :
    (r >>= f).trace = r.trace ∧ (r >>= f).result = .error e := by
  show (Run.bind r f).trace = _ ∧ (Run.bind r f).result = _
  unfold Run.bind
  rw [h]
  exact ⟨rfl, rfl⟩

theorem changeVtCalls_append (s t : List Event) :
    changeVtCalls (s ++ t) = changeVtCalls s ++ changeVtCalls t := by
  unfold changeVtCalls
  rw [List.filterMap_append]

theorem changeVtCalls_change_to_vt (env : VtEnv) (vt_num : Nat) :
    changeVtCalls (change_to_vt env vt_num).trace = [vt_num] := by
  rcases env with ⟨_ | _, _ | a, _ | _, _ | _, _ | _⟩ <;> rfl

theorem change_to_vt_result_lt (env : VtEnv) (vt_num P : Nat)
    (h : (change_to_vt env vt_num).result = .ok P) : P < 65536 := by
  rcases env with ⟨_ | _, _ | a, _ | _, _ | _, _ | _⟩ <;> cases h
  exact Nat.mod_lt _ (by decide)

theorem noVt_bind {α β : Type} (r : Run α) (f : α → Run β)
    (h1 : changeVtCalls r.trace = []) (h2 : ∀ a, changeVtCalls (f a).trace = []) :
    changeVtCalls (r >>= f).trace = [] := by
  show changeVtCalls (Run.bind r f).trace = []
  unfold Run.bind
  cases r.result with
  | ok a =>
    show changeVtCalls (r.trace ++ (f a).trace) = []
    rw [changeVtCalls_append, h1, h2 a]
    rfl
  | error e => exact h1

theorem noVt_pure {α : Type} (a : α) : changeVtCalls (pure a : Run α).trace = [] := rfl

theorem noVt_fatal {α : Type} (e : Fatal) : changeVtCalls (fatal_error e : Run α).trace = [] :=
  rfl

theorem changeVtCalls_main_resolve (opts : Options) (env : Env) :
    changeVtCalls (main_resolve opts env).trace = [] := by
  unfold main_resolve get_framebufferdata
  repeat' first
    | exact noVt_pure _
    | exact noVt_fatal _
    | rfl
    | apply noVt_bind
    | intro _
    | split

theorem changeVtCalls_main_capture (r : Resolved) (env : Env) :
    changeVtCalls (main_capture r env).trace = [] := by
  unfold main_capture read_framebuffer
  repeat' first
    | exact noVt_pure _
    | exact noVt_fatal _
    | rfl
    | apply noVt_bind
    | intro _
    | split
    | dsimp only

theorem changeVtCalls_convert_and_write (env : Env) (src : SrcOffsets) (inbuffer : Buffer)
    (filename : String) (width height bits interlace compression : Int) :
    changeVtCalls (convert_and_write env src inbuffer filename width height bits interlace
      compression).trace = [] := by
  unfold convert_and_write runConverter
  repeat' first
    | exact noVt_pure _
    | exact noVt_fatal _
    | exact changeVtCalls_write_PNG _ _ _ _ _ _ _
    | rfl
    | apply noVt_bind
    | intro _
    | split

theorem changeVtCalls_bind_ok {α β : Type} (r : Run α) (f : α → Run β) (a : α)
    (h : r.result = .ok a) :
    changeVtCalls (r >>= f).trace = changeVtCalls r.trace ++ changeVtCalls (f a).trace := by
  rw [(run_bind_of_ok r f a h).1, changeVtCalls_append]

theorem changeVtCalls_bind_error {α β : Type} (r : Run α) (f : α → Run β) (e : Fatal)
    (h : r.result = .error e) : changeVtCalls (r >>= f).trace = changeVtCalls r.trace := by
  rw [(run_bind_of_error r f e h).1]

theorem changeVtCalls_bind_quiet {α β : Type} (r : Run α) (f : α → Run β)
    (hf : ∀ a, changeVtCalls (f a).trace = []) :
    changeVtCalls (r >>= f).trace = changeVtCalls r.trace := by
  cases h : r.result with
  | ok a => rw [changeVtCalls_bind_ok r f a h, hf a, List.append_nil]
  | error e => exact changeVtCalls_bind_error r f e h

theorem main_switch_ok (opts : Options) (env : Env) (P : Nat) (hvt : opts.vt_num ≠ UNDEFINED)
    (hsw : (change_to_vt env.vtSwitch (opts.vt_num % 65536).toNat).result = .ok P) :
    (main_switch opts env).result = .ok (P : Int) ∧
    changeVtCalls (main_switch opts env).trace = [(opts.vt_num % 65536).toNat] := by
  unfold main_switch
  rw [if_pos (fun h => hvt h.symm)]
  constructor
  · rw [(run_bind_of_ok _ _ P hsw).2]
    split <;> rfl
  · rw [changeVtCalls_bind_quiet _ _ (fun a => by split <;> rfl)]
    exact changeVtCalls_change_to_vt _ _

theorem changeVtCalls_main_restore (P : Nat) (env : Env) (hP : P < 65536) :
    changeVtCalls (main_restore (P : Int) env).trace = [P] := by
  unfold main_restore
  have hne : UNDEFINED ≠ (P : Int) := by
    unfold UNDEFINED
    omega
  have hP2 : ((P : Int) % 65536).toNat = P := by omega
  rw [if_pos hne, hP2, changeVtCalls_bind_quiet _ _ (fun a => noVt_pure _)]
  exact changeVtCalls_change_to_vt _ _

theorem convertCalls_append (s t : List Event) :
    convertCalls (s ++ t) = convertCalls s ++ convertCalls t := by
  unfold convertCalls
  rw [List.filterMap_append]

theorem encoderCalls_append (s t : List Event) :
    encoderCalls (s ++ t) = encoderCalls s ++ encoderCalls t := by
  unfold encoderCalls
  rw [List.filterMap_append]

theorem readCalls_append (s t : List Event) :
    readCalls (s ++ t) = readCalls s ++ readCalls t := by
  unfold readCalls
  rw [List.filterMap_append]

theorem append_eq_nil_of {γ : Type} (a b : List γ) (ha : a = []) (hb : b = []) :
    a ++ b = [] := by
  rw [ha, hb]
  rfl

/-- The trace of `change_to_vt` starts with its call event; the remaining events
are console requests. -/
theorem change_to_vt_trace (env : VtEnv) (vt_num : Nat) :
    ∃ rest, (change_to_vt env vt_num).trace = .changeVt vt_num :: rest ∧
      changeVtCalls rest = [] ∧ convertCalls rest = [] ∧ encoderCalls rest = [] ∧
      readCalls rest = [] := by
  rcases env with ⟨_ | _, _ | a, _ | _, _ | _, _ | _⟩ <;> exact ⟨_, rfl, rfl, rfl, rfl, rfl⟩

/-- The events of a successful switch: the call of `change_to_vt`, console
requests and possibly the settle delay. -/
theorem main_switch_trace (opts : Options) (env : Env) (P : Nat)
    (hvt : opts.vt_num ≠ UNDEFINED)
    (hsw : (change_to_vt env.vtSwitch (opts.vt_num % 65536).toNat).result = .ok P) :
    convertCalls (main_switch opts env).trace = [] ∧
    encoderCalls (main_switch opts env).trace = [] ∧
    readCalls (main_switch opts env).trace = [] := by
  obtain ⟨rest, h, _, h2, h3, h4⟩ := change_to_vt_trace env.vtSwitch (opts.vt_num % 65536).toNat
  unfold main_switch
  rw [if_pos (fun h => hvt h.symm), (run_bind_of_ok _ _ P hsw).1, h]
  refine ⟨?_, ?_, ?_⟩
  · rw [convertCalls_append]
    apply append_eq_nil_of
    · exact h2
    · split <;> rfl
  · rw [encoderCalls_append]
    apply append_eq_nil_of
    · exact h3
    · split <;> rfl
  · rw [readCalls_append]
    apply append_eq_nil_of
    · exact h4
    · split <;> rfl

theorem noConv_bind {α β : Type} (r : Run α) (f : α → Run β)
    (h1 : convertCalls r.trace = []) (h2 : ∀ a, convertCalls (f a).trace = []) :
    convertCalls (r >>= f).trace = [] := by
  show convertCalls (Run.bind r f).trace = []
  unfold Run.bind
  cases r.result with
  | ok a =>
    show convertCalls (r.trace ++ (f a).trace) = []
    rw [convertCalls_append, h1, h2 a]
    rfl
  | error e => exact h1

theorem noEnc_bind {α β : Type} (r : Run α) (f : α → Run β)
    (h1 : encoderCalls r.trace = []) (h2 : ∀ a, encoderCalls (f a).trace = []) :
    encoderCalls (r >>= f).trace = [] := by
  show encoderCalls (Run.bind r f).trace = []
  unfold Run.bind
  cases r.result with
  | ok a =>
    show encoderCalls (r.trace ++ (f a).trace) = []
    rw [encoderCalls_append, h1, h2 a]
    rfl
  | error e => exact h1

theorem noRead_bind {α β : Type} (r : Run α) (f : α → Run β)
    (h1 : readCalls r.trace = []) (h2 : ∀ a, readCalls (f a).trace = []) :
    readCalls (r >>= f).trace = [] := by
  show readCalls (Run.bind r f).trace = []
  unfold Run.bind
  cases r.result with
  | ok a =>
    show readCalls (r.trace ++ (f a).trace) = []
    rw [readCalls_append, h1, h2 a]
    rfl
  | error e => exact h1

theorem main_resolve_quiet (opts : Options) (env : Env) :
    convertCalls (main_resolve opts env).trace = [] ∧
    encoderCalls (main_resolve opts env).trace = [] ∧
    readCalls (main_resolve opts env).trace = [] := by
  unfold main_resolve get_framebufferdata
  refine ⟨?_, ?_, ?_⟩
  · repeat' first
      | rfl
      | apply noConv_bind
      | intro _
      | split
  · repeat' first
      | rfl
      | apply noEnc_bind
      | intro _
      | split
  · repeat' first
      | rfl
      | apply noRead_bind
      | intro _
      | split

theorem main_capture_quiet (r : Resolved) (env : Env) :
    convertCalls (main_capture r env).trace = [] ∧
    encoderCalls (main_capture r env).trace = [] := by
  unfold main_capture read_framebuffer
  refine ⟨?_, ?_⟩
  · repeat' first
      | rfl
      | apply noConv_bind
      | intro _
      | split
      | dsimp only
  · repeat' first
      | rfl
      | apply noEnc_bind
      | intro _
      | split
      | dsimp only

theorem nil_bind {α β : Type} (r : Run α) (f : α → Run β)
    (h1 : r.trace = []) (h2 : ∀ a, (f a).trace = []) : (r >>= f).trace = [] := by
  show (Run.bind r f).trace = []
  unfold Run.bind
  cases r.result with
  | ok a =>
    show r.trace ++ (f a).trace = []
    rw [h1, h2 a]
    rfl
  | error e => exact h1

/-- The only event of `read_framebuffer` is its call. -/
theorem read_framebuffer_trace (env : Env) (device : String) (bytes : Nat) (bufOk : Bool)
    (skip_bytes : Int) :
    (read_framebuffer env device bytes bufOk skip_bytes).trace
      = [.readFramebuffer device bytes skip_bytes] := by
  unfold read_framebuffer
  show (Run.bind _ _).trace = _
  unfold Run.bind
  show [Event.readFramebuffer device bytes skip_bytes] ++ _ = _
  repeat' first
    | rfl
    | apply nil_bind
    | intro _
    | split
    | dsimp only

/-- A successful capture made exactly one call of `read_framebuffer`, for the
resolved source, `width * height * bytesPerPixel` bytes (in 32 bits) and the
resolved skip. -/
theorem main_capture_ok_trace (r : Resolved) (env : Env) (buf : Buffer)
    (h : (main_capture r env).result = .ok buf) :
    (main_capture r env).trace = [.readFramebuffer r.infile
      (toU32 (r.width * r.height) * bytesPerPixel r.bitdepth % 4294967296) r.skip_bytes] := by
  unfold main_capture at h ⊢
  cases hm : env.mallocInput
  · rw [hm] at h
    cases h
  · exact read_framebuffer_trace env _ _ _ _

/-- The restore step calls `change_to_vt` first, with the saved console. -/
theorem main_restore_trace (P : Nat) (env : Env) (hP : P < 65536) :
    ∃ rest, (main_restore (P : Int) env).trace = .changeVt P :: rest ∧
      changeVtCalls rest = [] ∧ convertCalls rest = [] ∧ encoderCalls rest = [] := by
  obtain ⟨rest, h, h1, h2, h3, _⟩ := change_to_vt_trace env.vtRestore P
  have hne : UNDEFINED ≠ (P : Int) := by
    unfold UNDEFINED
    omega
  have hP2 : ((P : Int) % 65536).toNat = P := by omega
  unfold main_restore
  rw [if_pos hne, hP2]
  cases hres : (change_to_vt env.vtRestore P).result with
  | ok a =>
    rw [(run_bind_of_ok _ _ a hres).1, h]
    exact ⟨rest, List.append_nil _, h1, h2, h3⟩
  | error e =>
    rw [(run_bind_of_error _ _ e hres).1, h]
    exact ⟨rest, rfl, h1, h2, h3⟩

/-- C7, as amended: in a run in which the switch `change_to_vt(vt_num)` succeeded and
returned the previous console `P`, and in which parameter resolution, the allocation
of the raw buffer and the raw read succeed, `change_to_vt` is called a second time,
exactly once and with target `P`; that call comes after the call of
`read_framebuffer` and before any converter call and any call of `write_PNG`, and
when the restore itself succeeds the conversion follows it, whatever its outcome.
When parameter resolution or the raw read fails after the switch, the run ends with
that error, the restore is not invoked, and neither a converter nor the encoder is
called. -/
theorem main_restore_symmetry (opts : Options) (env : Env) (P : Nat)
    (hvt : opts.vt_num ≠ UNDEFINED)
    (hsw : (change_to_vt env.vtSwitch (opts.vt_num % 65536).toNat).result = .ok P) :
    (∀ r buf, (main_resolve opts env).result = .ok r → (main_capture r env).result = .ok buf →
      changeVtCalls (main opts env).trace = [(opts.vt_num % 65536).toNat, P] ∧
      ∃ pre post, (main opts env).trace = pre ++ .changeVt P :: post ∧
        changeVtCalls pre = [(opts.vt_num % 65536).toNat] ∧ changeVtCalls post = [] ∧
        readCalls pre = [(r.infile,
          toU32 (r.width * r.height) * bytesPerPixel r.bitdepth % 4294967296, r.skip_bytes)] ∧
        convertCalls pre = [] ∧ encoderCalls pre = [] ∧
        (∀ u, (main_restore (P : Int) env).result = .ok u →
          convertCalls post = convertCalls (convert_and_write env r.src buf opts.outfile r.width
            r.height r.bitdepth opts.interlace opts.png_compression).trace ∧
          encoderCalls post = encoderCalls (convert_and_write env r.src buf opts.outfile r.width
            r.height r.bitdepth opts.interlace opts.png_compression).trace) ∧
        (∀ e, (main_restore (P : Int) env).result = .error e →
          convertCalls post = [] ∧ encoderCalls post = [] ∧
          (main opts env).result = .error e)) ∧
    (∀ e, (main_resolve opts env).result = .error e →
      changeVtCalls (main opts env).trace = [(opts.vt_num % 65536).toNat] ∧
      convertCalls (main opts env).trace = [] ∧ encoderCalls (main opts env).trace = [] ∧
      (main opts env).result = .error e) ∧
    (∀ r e, (main_resolve opts env).result = .ok r → (main_capture r env).result = .error e →
      changeVtCalls (main opts env).trace = [(opts.vt_num % 65536).toNat] ∧
      convertCalls (main opts env).trace = [] ∧ encoderCalls (main opts env).trace = [] ∧
      (main opts env).result = .error e) := by
  obtain ⟨hs1, hs2⟩ := main_switch_ok opts env P hvt hsw
  obtain ⟨hsc, hse, hsr⟩ := main_switch_trace opts env P hvt hsw
  obtain ⟨hrc, hre, hrr⟩ := main_resolve_quiet opts env
  have hP := change_to_vt_result_lt _ _ _ hsw
  unfold main
  refine ⟨?_, ?_, ?_⟩
  · intro r buf hr hb
    obtain ⟨hcc, hce⟩ := main_capture_quiet r env
    have hct := main_capture_ok_trace r env buf hb
    obtain ⟨rest, hrest, hv, hc, he⟩ := main_restore_trace P env hP
    constructor
    · rw [changeVtCalls_bind_ok _ _ _ hs1, hs2, changeVtCalls_bind_ok _ _ _ hr,
        changeVtCalls_main_resolve, changeVtCalls_bind_ok _ _ _ hb, changeVtCalls_main_capture,
        changeVtCalls_bind_quiet _ _ (fun _ => changeVtCalls_convert_and_write _ _ _ _ _ _ _ _ _),
        changeVtCalls_main_restore P env hP]
      rfl
    · rw [(run_bind_of_ok _ _ _ hs1).1, (run_bind_of_ok _ _ _ hr).1,
        (run_bind_of_ok _ _ _ hb).1, (run_bind_of_ok _ _ _ hs1).2, (run_bind_of_ok _ _ _ hr).2,
        (run_bind_of_ok _ _ _ hb).2]
      have hpre : changeVtCalls ((main_switch opts env).trace ++ ((main_resolve opts env).trace
          ++ (main_capture r env).trace)) = [(opts.vt_num % 65536).toNat] := by
        rw [changeVtCalls_append, changeVtCalls_append, hs2, changeVtCalls_main_resolve,
          changeVtCalls_main_capture]
        rfl
      have hread : readCalls ((main_switch opts env).trace ++ ((main_resolve opts env).trace
          ++ (main_capture r env).trace)) = [(r.infile,
            toU32 (r.width * r.height) * bytesPerPixel r.bitdepth % 4294967296,
            r.skip_bytes)] := by
        rw [readCalls_append, readCalls_append, hsr, hrr, hct]
        rfl
      have hconv : convertCalls ((main_switch opts env).trace ++ ((main_resolve opts env).trace
          ++ (main_capture r env).trace)) = [] := by
        rw [convertCalls_append, convertCalls_append, hsc, hrc, hcc]
        rfl
      have henc : encoderCalls ((main_switch opts env).trace ++ ((main_resolve opts env).trace
          ++ (main_capture r env).trace)) = [] := by
        rw [encoderCalls_append, encoderCalls_append, hse, hre, hce]
        rfl
      cases hres : (main_restore (P : Int) env).result with
      | ok u =>
        rw [(run_bind_of_ok _ _ u hres).1, (run_bind_of_ok _ _ u hres).2, hrest]
        refine ⟨_, rest ++ (convert_and_write env r.src buf opts.outfile r.width r.height
          r.bitdepth opts.interlace opts.png_compression).trace, ?_, hpre, ?_, hread, hconv, henc,
          ?_, ?_⟩
        · simp only [List.append_assoc, List.cons_append]
        · rw [changeVtCalls_append, hv, changeVtCalls_convert_and_write]
          rfl
        · intro _ _
          rw [convertCalls_append, encoderCalls_append, hc, he]
          exact ⟨rfl, rfl⟩
        · intro e h
          cases h
      | error e =>
        rw [(run_bind_of_error _ _ e hres).1, (run_bind_of_error _ _ e hres).2, hrest]
        refine ⟨_, rest, ?_, hpre, hv, hread, hconv, henc, ?_, ?_⟩
        · simp only [List.append_assoc]
        · intro u h
          cases h
        · intro e2 h
          cases h
          exact ⟨hc, he, rfl⟩
  · intro e hr
    refine ⟨?_, ?_, ?_, ?_⟩
    · rw [changeVtCalls_bind_ok _ _ _ hs1, hs2, changeVtCalls_bind_error _ _ _ hr,
        changeVtCalls_main_resolve]
      rfl
    · rw [(run_bind_of_ok _ _ _ hs1).1, (run_bind_of_error _ _ _ hr).1, convertCalls_append, hsc,
        hrc]
      rfl
    · rw [(run_bind_of_ok _ _ _ hs1).1, (run_bind_of_error _ _ _ hr).1, encoderCalls_append, hse,
        hre]
      rfl
    · rw [(run_bind_of_ok _ _ _ hs1).2, (run_bind_of_error _ _ _ hr).2]
  · intro r e hr hb
    obtain ⟨hcc, hce⟩ := main_capture_quiet r env
    refine ⟨?_, ?_, ?_, ?_⟩
    · rw [changeVtCalls_bind_ok _ _ _ hs1, hs2, changeVtCalls_bind_ok _ _ _ hr,
        changeVtCalls_main_resolve, changeVtCalls_bind_error _ _ _ hb, changeVtCalls_main_capture]
      rfl
    · rw [(run_bind_of_ok _ _ _ hs1).1, (run_bind_of_ok _ _ _ hr).1,
        (run_bind_of_error _ _ _ hb).1, convertCalls_append, convertCalls_append, hsc, hrc, hcc]
      rfl
    · rw [(run_bind_of_ok _ _ _ hs1).1, (run_bind_of_ok _ _ _ hr).1,
        (run_bind_of_error _ _ _ hb).1, encoderCalls_append, encoderCalls_append, hse, hre, hce]
      rfl
    · rw [(run_bind_of_ok _ _ _ hs1).2, (run_bind_of_ok _ _ _ hr).2,
        (run_bind_of_error _ _ _ hb).2]

/-- C7, witness: a capture from a file on console 2 while console 1 was active.
The calls of `change_to_vt` are the switch to 2 and the restore to 1; the restore
comes after the read of 4 bytes from `dump.raw` and before the 32-bit converter
and the encoder are called. -/
theorem main_restore_symmetry_witness :
    changeVtCalls (main fileOptions sampleEnv).trace = [2, 1] ∧
    ∃ pre post, (main fileOptions sampleEnv).trace = pre ++ .changeVt 1 :: post ∧
      changeVtCalls pre = [2] ∧ changeVtCalls post = [] ∧
      readCalls pre = [("dump.raw", 4, 0)] ∧
      convertCalls pre = [] ∧ encoderCalls pre = [] ∧
      convertCalls post = [32] ∧ encoderCalls post = [[10, 20, 30, 40]] := by
  obtain ⟨h1, pre, post, h2, h3, h4, h5, h6, h7, h8, _⟩ :=
    (main_restore_symmetry fileOptions sampleEnv 1 (by decide) rfl).1
      ⟨"dump.raw", 32, 1, 1, 0, initialOffsets⟩ [10, 20, 30, 40] rfl rfl
  obtain ⟨h9, h10⟩ := h8 () rfl
  exact ⟨h1, pre, post, h2, h3, h4, h5, h6, h7, h9, h10⟩

/-- C7, counterexample: the switch to console 2 succeeds and returns console 1,
then the input cannot be opened, or it is too short, or the single `read` returns
fewer bytes than requested although the file holds them, or a file parameter is
missing; each run ends with the error and `change_to_vt` is never called for the
restore. -/
theorem main_no_restore_on_failure :
    (change_to_vt sampleEnv.vtSwitch 2).result = .ok 1 ∧
    (main fileOptions { sampleEnv with source := none }).result = .error .cannotOpenDevice ∧
    changeVtCalls (main fileOptions { sampleEnv with source := none }).trace = [2] ∧
    (main fileOptions { sampleEnv with source := some [10, 20] }).result
      = .error .notEnoughData ∧
    changeVtCalls (main fileOptions { sampleEnv with source := some [10, 20] }).trace = [2] ∧
    (main fileOptions { sampleEnv with readOutcome := some 2 }).result
      = .error .notEnoughData ∧
    changeVtCalls (main fileOptions { sampleEnv with readOutcome := some 2 }).trace = [2] ∧
    (main { fileOptions with width := UNDEFINED } sampleEnv).result
      = .error .missingFileParameters ∧
    changeVtCalls (main { fileOptions with width := UNDEFINED } sampleEnv).trace = [2] := by
  decide

/-- C8: for a file source the byte skip is `0`.  For a device source the code
computes `yoffset * xres * (bits_per_pixel >> 3)` with the visible width `xres`, not
the stride width: on a 1366-pixel-wide screen whose lines are padded to 1376 pixels
(5504 bytes, 32 bits per pixel) with `yoffset = 768`, the default capture width is
the stride width 1376, but the skip is `768 * 1366 * 4 = 4196352` and not
`768 * 1376 * 4 = 4227072`. -/
theorem main_resolve_skip_bytes :
    (∀ (opts : Options) (env : Env) (r : Resolved), opts.infile.length > 0 →
      (main_resolve opts env).result = .ok r → r.skip_bytes = 0) ∧
    (main_resolve deviceOptions sampleEnv).result
      = .ok ⟨"/dev/fb0", 32, 1376, 768, 4196352, ⟨0, 1, 2, -1⟩⟩ ∧
    (5504 / (32 / 8) = 1376 ∧ 768 * 1366 * (32 / 8) = 4196352 ∧
      768 * 1376 * (32 / 8) = 4227072) := by
  refine ⟨?_, rfl, by decide⟩
  intro opts env r hfile hr
  unfold main_resolve at hr
  rw [if_pos hfile] at hr
  split at hr
  · cases hr
  · cases hr
    rfl

/-- In file mode the channel offsets stay at their initial values. -/
theorem main_resolve_file_offsets (opts : Options) (env : Env) (r : Resolved)
    (hfile : opts.infile.length > 0) (hr : (main_resolve opts env).result = .ok r) :
    r.src = initialOffsets := by
  unfold main_resolve at hr
  rw [if_pos hfile] at hr
  split at hr
  · cases hr
  · cases hr
    rfl

end Fbgrab
